import Mathlib

/-!
Verification development for the adhyayan-agentic-oer evaluation → decision →
release pipeline.

Shallow embedding conventions:
* Python floats are modelled as exact rationals `ℚ`; `None` as `Option`.
  `float("-inf")` sentinels are modelled as `Option.none` results.
* Python `round(x, 2)` is modelled as rational rounding to two decimals
  (`round2`); no statement in this file depends on tie-at-half behaviour.
* Database tables are lists of row structures; ORM `filter(...).update(...)`
  becomes `List.map` with a condition, `get_or_create` becomes a lookup plus
  append, `order_by` becomes a stable insertion sort (Python's sort and the
  database cursor order are also stable, so the observable list coincides).
* Timestamps are integers (`ℤ`), larger = later.
* Calls into the outside world (the Gemini LLM, text statistics such as
  `textstat.flesch_reading_ease`, regex counters, Google-Drive extraction)
  are inputs ("oracles") to the embedded functions; everything the repository
  itself computes from those inputs is embedded.
-/

namespace Adhyayan

/-! ### Data model (accounts/models.py) -/

/-- `accounts.models.UploadCheck`: one contributor upload for one chapter. -/
structure UploadCheck where
  id : ℕ
  contributor_id : ℕ
  chapter_id : ℕ
  timestamp : ℤ
  evaluation_status : Bool
deriving DecidableEq

/-- `accounts.models.ContentScore`: one-to-one with `UploadCheck`; five
nullable dimension floats plus the winner flag `is_best`. -/
structure ContentScore where
  upload_id : ℕ
  engagement : Option ℚ
  clarity : Option ℚ
  coherence : Option ℚ
  completeness : Option ℚ
  accuracy : Option ℚ
  is_best : Bool
deriving DecidableEq

/-- `accounts.models.ReleasedContent` (the filesystem-derived
`drive_folder_id` bookkeeping is orthogonal I/O and not modelled). -/
structure ReleasedRow where
  upload_id : ℕ
  release_status : Bool
deriving DecidableEq

/-- `accounts.models.Chapter` (only the fields the core pipeline reads). -/
structure Chapter where
  id : ℕ
  course_id : ℕ
  chapter_number : ℕ
deriving DecidableEq

/-- `accounts.models.ChapterPolicy` (fields read by the decision engine). -/
structure PolicyRow where
  chapter_id : ℕ
  current_deadline : Option ℤ
  min_contributions : ℕ
deriving DecidableEq

/-- `ChapterPolicy.is_open`: no current deadline means open; otherwise open
while `timezone.now() <= current_deadline`. -/
def PolicyRow.is_open (p : PolicyRow) (now : ℤ) : Bool :=
  match p.current_deadline with
  | none => true
  | some d => decide (now ≤ d)

/-- `accounts.models.DecisionRun` audit rows (fields the claims mention). -/
structure DecisionRunRow where
  chapter_id : ℕ
  selected_upload_id : Option ℕ
  status : String
  explanation : String
  composite_score : Option ℚ
  ranking : List (ℕ × ℚ)
  is_latest : Bool

/-- The five numeric scoring dimensions of `ContentScore`. -/
inductive Dim
  | accuracy
  | clarity
  | coherence
  | completeness
  | engagement
deriving DecidableEq

/-- Read one dimension field off a `ContentScore`
(`_float_or_none(getattr(score_obj, f, None))`; the stored values are
already floats-or-null, so the conversion is the identity). -/
def ContentScore.dim (s : ContentScore) : Dim → Option ℚ
  | .accuracy => s.accuracy
  | .clarity => s.clarity
  | .coherence => s.coherence
  | .completeness => s.completeness
  | .engagement => s.engagement

/-- Write one dimension field of a `ContentScore`. -/
def ContentScore.setDim (s : ContentScore) : Dim → ℚ → ContentScore
  | .accuracy, v => { s with accuracy := some v }
  | .clarity, v => { s with clarity := some v }
  | .coherence, v => { s with coherence := some v }
  | .completeness, v => { s with completeness := some v }
  | .engagement, v => { s with engagement := some v }

/-- `_available_score_fields()`: runtime introspection of `ContentScore`
finds exactly the five Float dimension columns (`id`, `upload`, `is_best`
are excluded) and returns their names sorted alphabetically. -/
def available_score_fields : List Dim :=
  [.accuracy, .clarity, .coherence, .completeness, .engagement]

/-! ### Decision engine configuration (accounts/services/decision_maker.py) -/

/-- `DEFAULT_MISSING_STRATEGY` choices: `ignore | zero`. -/
inductive MissingStrategy
  | ignore
  | zero
deriving DecidableEq

/-- `DEFAULT_PRIMARY_STRATEGY` choices. -/
inductive PrimaryStrategy
  | weighted_average
  | simple_average
deriving DecidableEq

/-- The `settings.DECISION_MAKER` configuration dict as the service reads it:
an optional priority list, a partial weight map (missing key → weight 1.0),
and the two strategy switches already resolved against their defaults. -/
structure DecisionConfig where
  priority : Option (List Dim)
  weights : Dim → Option ℚ
  primary_strategy : PrimaryStrategy
  missing_strategy : MissingStrategy

/-- Empty `DECISION_MAKER` config: all defaults. -/
def defaultConfig : DecisionConfig :=
  { priority := none
    weights := fun _ => none
    primary_strategy := .weighted_average
    missing_strategy := .ignore }

/-- `DEFAULT_PRIORITY` from decision_maker.py. -/
def DEFAULT_PRIORITY : List Dim :=
  [.accuracy, .completeness, .coherence, .clarity, .engagement]

/-- `_resolve_priority`: take the configured priority when truthy (a
non-empty list), else the default; keep only available fields; append the
remaining available fields as a tail. -/
def resolve_priority (cfg : DecisionConfig) (available : List Dim) : List Dim :=
  let priority := match cfg.priority with
    | some (p :: ps) => p :: ps
    | _ => DEFAULT_PRIORITY
  let priority_clean := priority.filter (fun p => p ∈ available)
  let tail := available.filter (fun f => f ∉ priority_clean)
  priority_clean ++ tail

/-- `_resolve_weights`: one weight per available field, defaulting to 1.0.
The association list keeps the dict's insertion order (= `available`). -/
def resolve_weights (cfg : DecisionConfig) (available : List Dim) : List (Dim × ℚ) :=
  available.map (fun f => (f, (cfg.weights f).getD 1))

/-- `_weighted_average`: accumulate numerator/denominator over the weight
map; zero weights are skipped; a missing value adds its weight to the
denominator only under the `zero` policy; a non-positive denominator gives
`float("-inf")`, modelled as `none`. -/
def weighted_average (scores : Dim → Option ℚ) (weights : List (Dim × ℚ))
    (missing : MissingStrategy) : Option ℚ :=
  let nd := weights.foldl
    (fun (nd : ℚ × ℚ) (kw : Dim × ℚ) =>
      if kw.2 = 0 then nd
      else
        match scores kw.1 with
        | none =>
          match missing with
          | .zero => ((nd.1, nd.2 + kw.2) : ℚ × ℚ)
          | .ignore => nd
        | some v => (nd.1 + v * kw.2, nd.2 + kw.2))
    ((0, 0) : ℚ × ℚ)
  if nd.2 ≤ 0 then none else some (nd.1 / nd.2)

/-- `_simple_average`: mean over present values; the `zero` policy appends a
literal 0.0 for each missing field; an empty value list gives `-inf`
(`none`). -/
def simple_average (scores : Dim → Option ℚ) (fields : List Dim)
    (missing : MissingStrategy) : Option ℚ :=
  let vals := fields.foldr
    (fun f acc =>
      match scores f with
      | none =>
        match missing with
        | .zero => (0 : ℚ) :: acc
        | .ignore => acc
      | some v => v :: acc)
    []
  if vals = [] then none else some (vals.sum / vals.length)

/-! ### Release-gate arithmetic (accounts/services/admin_agent.py) -/

/-- `AdminAgentService._required_chapters`: 0 for a non-positive chapter
count or threshold, else `max(1, floor(threshold * total / 100))`
(`math.floor` of the exact quotient = integer floor division). -/
def required_chapters (total_chapters : ℤ) (threshold_percentage : ℤ) : ℤ :=
  if total_chapters ≤ 0 then 0
  else if threshold_percentage ≤ 0 then 0
  else max 1 ((threshold_percentage * total_chapters) / 100)

example : required_chapters 6 80 = 4 := by decide
example : required_chapters 1 50 = 1 := by decide
example : required_chapters 5 0 = 0 := by decide

/-! ### Ranking (DecisionMakerService.rank_uploads)

The Python sort key is the flat tuple
`(composite, *tiebreak_vals, non_null, timestamp, upload_id)` compared
lexicographically, with missing tie-break dimensions as `float("-inf")`
(modelled by `⊥ : WithBot ℚ`); `list.sort(key=..., reverse=True)` is a
stable descending sort. -/

/-- Tie-break entry: a present score, or `-inf` for a missing one. -/
def obot : Option ℚ → WithBot ℚ
  | none => ⊥
  | some v => (v : WithBot ℚ)

/-- Lexicographic strict order on the tie-break value lists (Python tuple
comparison restricted to the tie-break segment; both lists always have the
length of the resolved priority list within one run). -/
def tbLt : List (WithBot ℚ) → List (WithBot ℚ) → Prop
  | _, [] => False
  | [], _ :: _ => True
  | a :: as, b :: bs => a < b ∨ (a = b ∧ tbLt as bs)

theorem tbLt_nil_right (xs : List (WithBot ℚ)) : ¬ tbLt xs [] := by
  cases xs <;> simp [tbLt]

theorem tbLt_nil_cons (y : WithBot ℚ) (ys : List (WithBot ℚ)) : tbLt [] (y :: ys) := by
  simp [tbLt]

theorem tbLt_cons_cons {x y : WithBot ℚ} {xs ys : List (WithBot ℚ)} :
    tbLt (x :: xs) (y :: ys) ↔ (x < y ∨ (x = y ∧ tbLt xs ys)) := Iff.rfl

instance tbLt.decidable : ∀ xs ys : List (WithBot ℚ), Decidable (tbLt xs ys)
  | xs, [] => decidable_of_iff False (by simp [tbLt_nil_right xs])
  | [], y :: ys => decidable_of_iff True (by simp [tbLt_nil_cons y ys])
  | x :: xs, y :: ys =>
    haveI := tbLt.decidable xs ys
    decidable_of_iff (x < y ∨ (x = y ∧ tbLt xs ys)) tbLt_cons_cons.symm

theorem tbLt_trichotomy : ∀ xs ys : List (WithBot ℚ), tbLt xs ys ∨ xs = ys ∨ tbLt ys xs
  | [], [] => Or.inr (Or.inl rfl)
  | [], y :: ys => Or.inl (tbLt_nil_cons y ys)
  | x :: xs, [] => Or.inr (Or.inr (tbLt_nil_cons x xs))
  | x :: xs, y :: ys => by
    rcases lt_trichotomy x y with h | h | h
    · exact Or.inl (tbLt_cons_cons.mpr (Or.inl h))
    · subst h
      rcases tbLt_trichotomy xs ys with h2 | h2 | h2
      · exact Or.inl (tbLt_cons_cons.mpr (Or.inr ⟨rfl, h2⟩))
      · exact Or.inr (Or.inl (by rw [h2]))
      · exact Or.inr (Or.inr (tbLt_cons_cons.mpr (Or.inr ⟨rfl, h2⟩)))
    · exact Or.inr (Or.inr (tbLt_cons_cons.mpr (Or.inl h)))

theorem tbLt_trans : ∀ {xs ys zs : List (WithBot ℚ)},
    tbLt xs ys → tbLt ys zs → tbLt xs zs
  | _, ys, [], _, h2 => absurd h2 (tbLt_nil_right ys)
  | xs, [], _ :: _, h1, _ => absurd h1 (tbLt_nil_right xs)
  | [], _ :: _, _ :: zs, _, _ => tbLt_nil_cons _ zs
  | x :: xs, y :: ys, z :: zs, h1, h2 => by
    rcases tbLt_cons_cons.mp h1 with hxy | ⟨hxy, hr⟩ <;>
      rcases tbLt_cons_cons.mp h2 with hyz | ⟨hyz, hs⟩
    · exact tbLt_cons_cons.mpr (Or.inl (lt_trans hxy hyz))
    · exact tbLt_cons_cons.mpr (Or.inl (hyz ▸ hxy))
    · exact tbLt_cons_cons.mpr (Or.inl (hxy ▸ hyz))
    · exact tbLt_cons_cons.mpr (Or.inr ⟨hxy.trans hyz, tbLt_trans hr hs⟩)

theorem tbLt_asymm : ∀ {xs ys : List (WithBot ℚ)}, tbLt xs ys → ¬ tbLt ys xs
  | xs, [], h1, _ => absurd h1 (tbLt_nil_right xs)
  | [], _ :: _, _, h2 => absurd h2 (tbLt_nil_right _)
  | x :: xs, y :: ys, h1, h2 => by
    rcases tbLt_cons_cons.mp h1 with hxy | ⟨hxy, hr⟩ <;>
      rcases tbLt_cons_cons.mp h2 with hyx | ⟨hyx, hs⟩
    · exact lt_asymm hxy hyx
    · exact absurd (hyx ▸ hxy) (lt_irrefl y)
    · exact absurd (hxy ▸ hyx) (lt_irrefl y)
    · exact tbLt_asymm hr hs

/-- The sort key tuple of `DecisionMakerService.rank_uploads.sort_key`. -/
structure SortKey where
  composite : ℚ
  tiebreak : List (WithBot ℚ)
  non_null : ℕ
  timestamp : ℤ
  upload_id : ℕ
deriving DecidableEq

/-- Strict lexicographic order on sort keys (Python tuple `<`). -/
def keyLt (k k' : SortKey) : Prop :=
  k.composite < k'.composite ∨
    (k.composite = k'.composite ∧
      (tbLt k.tiebreak k'.tiebreak ∨
        (k.tiebreak = k'.tiebreak ∧
          (k.non_null < k'.non_null ∨
            (k.non_null = k'.non_null ∧
              (k.timestamp < k'.timestamp ∨
                (k.timestamp = k'.timestamp ∧ k.upload_id < k'.upload_id)))))))

instance keyLt.decidable (k k' : SortKey) : Decidable (keyLt k k') := by
  unfold keyLt
  infer_instance

theorem keyLt_trichotomy (k k' : SortKey) : keyLt k k' ∨ k = k' ∨ keyLt k' k := by
  obtain ⟨c, t, n, s, u⟩ := k
  obtain ⟨c', t', n', s', u'⟩ := k'
  rcases lt_trichotomy c c' with h | h | h
  · exact Or.inl (Or.inl h)
  · subst h
    rcases tbLt_trichotomy t t' with h2 | h2 | h2
    · exact Or.inl (Or.inr ⟨rfl, Or.inl h2⟩)
    · subst h2
      rcases lt_trichotomy n n' with h3 | h3 | h3
      · exact Or.inl (Or.inr ⟨rfl, Or.inr ⟨rfl, Or.inl h3⟩⟩)
      · subst h3
        rcases lt_trichotomy s s' with h4 | h4 | h4
        · exact Or.inl (Or.inr ⟨rfl, Or.inr ⟨rfl, Or.inr ⟨rfl, Or.inl h4⟩⟩⟩)
        · subst h4
          rcases lt_trichotomy u u' with h5 | h5 | h5
          · exact Or.inl (Or.inr ⟨rfl, Or.inr ⟨rfl, Or.inr ⟨rfl, Or.inr ⟨rfl, h5⟩⟩⟩⟩)
          · subst h5
            exact Or.inr (Or.inl rfl)
          · exact Or.inr (Or.inr (Or.inr ⟨rfl, Or.inr ⟨rfl, Or.inr ⟨rfl, Or.inr ⟨rfl, h5⟩⟩⟩⟩))
        · exact Or.inr (Or.inr (Or.inr ⟨rfl, Or.inr ⟨rfl, Or.inr ⟨rfl, Or.inl h4⟩⟩⟩))
      · exact Or.inr (Or.inr (Or.inr ⟨rfl, Or.inr ⟨rfl, Or.inl h3⟩⟩))
    · exact Or.inr (Or.inr (Or.inr ⟨rfl, Or.inl h2⟩))
  · exact Or.inr (Or.inr (Or.inl h))

theorem keyLt_trans {a b c : SortKey} (h1 : keyLt a b) (h2 : keyLt b c) : keyLt a c := by
  obtain ⟨ac, at', an, as', au⟩ := a
  obtain ⟨bc, bt, bn, bs, bu⟩ := b
  obtain ⟨cc, ct, cn, cs, cu⟩ := c
  simp only [keyLt] at h1 h2 ⊢
  rcases h1 with h1 | ⟨e1, h1⟩
  · rcases h2 with h2 | ⟨e2, _⟩
    · exact Or.inl (lt_trans h1 h2)
    · exact Or.inl (e2 ▸ h1)
  · rcases h2 with h2 | ⟨e2, h2⟩
    · exact Or.inl (e1 ▸ h2)
    · refine Or.inr ⟨e1.trans e2, ?_⟩
      rcases h1 with h1 | ⟨f1, h1⟩
      · rcases h2 with h2 | ⟨f2, _⟩
        · exact Or.inl (tbLt_trans h1 h2)
        · exact Or.inl (f2 ▸ h1)
      · rcases h2 with h2 | ⟨f2, h2⟩
        · exact Or.inl (f1 ▸ h2)
        · refine Or.inr ⟨f1.trans f2, ?_⟩
          rcases h1 with h1 | ⟨g1, h1⟩
          · rcases h2 with h2 | ⟨g2, _⟩
            · exact Or.inl (lt_trans h1 h2)
            · exact Or.inl (g2 ▸ h1)
          · rcases h2 with h2 | ⟨g2, h2⟩
            · exact Or.inl (g1 ▸ h2)
            · refine Or.inr ⟨g1.trans g2, ?_⟩
              rcases h1 with h1 | ⟨i1, h1⟩
              · rcases h2 with h2 | ⟨i2, _⟩
                · exact Or.inl (lt_trans h1 h2)
                · exact Or.inl (i2 ▸ h1)
              · rcases h2 with h2 | ⟨i2, h2⟩
                · exact Or.inl (i1 ▸ h2)
                · exact Or.inr ⟨i1.trans i2, lt_trans h1 h2⟩

theorem keyLt_irrefl (k : SortKey) : ¬ keyLt k k := by
  obtain ⟨c, t, n, s, u⟩ := k
  simp only [keyLt]
  rintro (h | ⟨-, h | ⟨-, h | ⟨-, h | ⟨-, h⟩⟩⟩⟩)
  · exact lt_irrefl _ h
  · exact tbLt_asymm h h
  · exact lt_irrefl _ h
  · exact lt_irrefl _ h
  · exact lt_irrefl _ h

/-- One row of the `RankedCandidate` dataclass. -/
structure RankedCandidate where
  upload_id : ℕ
  chapter_id : ℕ
  contributor_id : ℕ
  timestamp : ℤ
  composite_score : ℚ
  scores : Dim → Option ℚ

/-- `sum(1 for v in c.scores.values() if v is not None)`; the scores dict is
keyed by exactly the available fields. -/
def non_null_count (scores : Dim → Option ℚ) : ℕ :=
  (available_score_fields.filter (fun f => (scores f).isSome)).length

/-- The sort key of one candidate for a given resolved priority list. -/
def sort_key (priority : List Dim) (c : RankedCandidate) : SortKey :=
  { composite := c.composite_score
    tiebreak := priority.map (fun p => obot (c.scores p))
    non_null := non_null_count c.scores
    timestamp := c.timestamp
    upload_id := c.upload_id }

/-- `c` may stay before `d` in the descending stable sort:
`sort_key c ≥ sort_key d`. -/
def rank_le (priority : List Dim) (c d : RankedCandidate) : Prop :=
  keyLt (sort_key priority d) (sort_key priority c) ∨
    sort_key priority d = sort_key priority c

instance rank_le.decidable (priority : List Dim) : DecidableRel (rank_le priority) :=
  fun c d => by unfold rank_le; infer_instance

instance rank_le.isTotal (priority : List Dim) :
    IsTotal RankedCandidate (rank_le priority) := by
  constructor
  intro c d
  rcases keyLt_trichotomy (sort_key priority d) (sort_key priority c) with h | h | h
  · exact Or.inl (Or.inl h)
  · exact Or.inl (Or.inr h)
  · exact Or.inr (Or.inl h)

instance rank_le.isTrans (priority : List Dim) :
    IsTrans RankedCandidate (rank_le priority) := by
  constructor
  intro a b c hab hbc
  rcases hab with hab | hab <;> rcases hbc with hbc | hbc
  · exact Or.inl (keyLt_trans hbc hab)
  · exact Or.inl (hbc ▸ hab)
  · exact Or.inl (hab ▸ hbc)
  · exact Or.inr (hbc.trans hab)

/-- The per-upload body of the loop in `rank_uploads`: skip uploads without
a related `ContentScore` row, build the scores dict, compute the composite
by the configured strategy, skip `-inf` composites. -/
def candidate_of (cfg : DecisionConfig) (scoresDB : List ContentScore)
    (chapter_id : ℕ) (u : UploadCheck) : Option RankedCandidate :=
  match scoresDB.find? (fun s => s.upload_id = u.id) with
  | none => none
  | some score_obj =>
    let scores : Dim → Option ℚ := fun f => score_obj.dim f
    let composite : Option ℚ :=
      match cfg.primary_strategy with
      | .simple_average =>
        simple_average scores available_score_fields cfg.missing_strategy
      | .weighted_average =>
        weighted_average scores (resolve_weights cfg available_score_fields)
          cfg.missing_strategy
    match composite with
    | none => none
    | some comp =>
      some { upload_id := u.id
             chapter_id := chapter_id
             contributor_id := u.contributor_id
             timestamp := u.timestamp
             composite_score := comp
             scores := scores }

/-- `DecisionMakerService.rank_uploads`: build candidates in upload order,
then sort stably by the descending sort key. -/
def rank_uploads (cfg : DecisionConfig) (scoresDB : List ContentScore)
    (chapter_id : ℕ) (uploads : List UploadCheck) : List RankedCandidate :=
  match available_score_fields with
  | [] => []
  | _ :: _ =>
    let priority := resolve_priority cfg available_score_fields
    let candidates := uploads.filterMap (candidate_of cfg scoresDB chapter_id)
    List.insertionSort (rank_le priority) candidates

/-! ### Decision engine (DecisionMakerService.decide_for_chapter) -/

/-- Keyword options of `decide_for_chapter` (with their defaults). -/
inductive MinContributionsPolicy
  | respect
  | ignore
deriving DecidableEq

structure DecideOpts where
  force : Bool
  only_evaluated_uploads : Bool
  min_contributions_policy : MinContributionsPolicy
  auto_release : Bool
  persist : Bool
  top_k_audit : ℕ
deriving DecidableEq

def defaultOpts : DecideOpts :=
  { force := false
    only_evaluated_uploads := true
    min_contributions_policy := .respect
    auto_release := false
    persist := true
    top_k_audit := 10 }

/-- The database state the decision engine reads and writes. -/
structure DecisionDB where
  uploads : List UploadCheck
  scores : List ContentScore
  policies : List PolicyRow
  runs : List DecisionRunRow
  released : List ReleasedRow

/-- Which branch `decide_for_chapter` took (the status written into the
`DecisionRun` audit row on that branch). -/
inductive DecideStatus
  | not_due
  | not_ready
  | no_candidates
  | ok
deriving DecidableEq

/-- The non-null value handed back to the caller on success. -/
structure DecideReturn where
  selected_upload_id : ℕ
  composite_score : ℚ
deriving DecidableEq

structure DecideResult where
  status : DecideStatus
  returned : Option DecideReturn
  db : DecisionDB

/-- Chapter of an upload id (`upload__chapter_id` join). -/
def upload_chapter (uploads : List UploadCheck) (uid : ℕ) : Option ℕ :=
  (uploads.find? (fun u => u.id = uid)).map (fun u => u.chapter_id)

/-- `_create_decision_run`: unset `is_latest` on the chapter's previous
latest row, then append the new row with `is_latest = true`. -/
def create_decision_run (runs : List DecisionRunRow) (chapter_id : ℕ)
    (status reason : String) (selected : Option ℕ) (composite : Option ℚ)
    (ranking : List (ℕ × ℚ)) : List DecisionRunRow :=
  (runs.map fun r =>
    if r.chapter_id = chapter_id ∧ r.is_latest = true then
      { r with is_latest := false }
    else r) ++
    [{ chapter_id := chapter_id
       selected_upload_id := selected
       status := status
       explanation := reason
       composite_score := composite
       ranking := ranking
       is_latest := true }]

/-- `_persist_or_return_none`: persist a non-`ok` audit row when requested
(the `DecisionRun` model is present in this codebase), return `None`. -/
def persist_or_skip (db : DecisionDB) (chapter_id : ℕ) (status reason : String)
    (persist : Bool) : DecisionDB :=
  if persist then
    { db with runs := create_decision_run db.runs chapter_id status reason none none [] }
  else db

/-- `_mark_best_upload`: clear `is_best` on every score row of the chapter,
then set it on every score row of the winning upload (`is_best` exists on
the model, so the introspection guard passes). -/
def mark_best_upload (uploads : List UploadCheck) (scores : List ContentScore)
    (chapter_id upload_id : ℕ) : List ContentScore :=
  let cleared := scores.map fun s =>
    if upload_chapter uploads s.upload_id = some chapter_id then
      { s with is_best := false }
    else s
  cleared.map fun s =>
    if s.upload_id = upload_id then { s with is_best := true } else s

/-- `_auto_release`: clear `release_status` for the chapter, then
`update_or_create` the winner's row with `release_status = true`. -/
def auto_release (uploads : List UploadCheck) (released : List ReleasedRow)
    (chapter_id winner_upload_id : ℕ) : List ReleasedRow :=
  let cleared := released.map fun r =>
    if upload_chapter uploads r.upload_id = some chapter_id then
      { r with release_status := false }
    else r
  if cleared.any (fun r => r.upload_id = winner_upload_id) then
    cleared.map fun r =>
      if r.upload_id = winner_upload_id then { r with release_status := true } else r
  else cleared ++ [{ upload_id := winner_upload_id, release_status := true }]

/-- Stable descending sort by timestamp (`order_by("-timestamp")`). -/
def sort_ts_desc (uploads : List UploadCheck) : List UploadCheck :=
  List.insertionSort (fun u v => v.timestamp ≤ u.timestamp) uploads

instance : DecidableRel (fun u v : UploadCheck => v.timestamp ≤ u.timestamp) :=
  fun u v => inferInstanceAs (Decidable (v.timestamp ≤ u.timestamp))

/-- Leaderboard snapshot `ranked[:max(1, top_k)]` as (upload id, composite)
pairs. -/
def leaderboard (ranked : List RankedCandidate) (top_k : ℕ) : List (ℕ × ℚ) :=
  (ranked.take (max 1 top_k)).map (fun c => (c.upload_id, c.composite_score))

/-- `DecisionMakerService.decide_for_chapter`: deadline gate,
minimum-contributions gate, ranking, winner persistence/marking/release. -/
def decide_for_chapter (cfg : DecisionConfig) (db : DecisionDB) (chapter_id : ℕ)
    (opts : DecideOpts) (now : ℤ) : DecideResult :=
  let policy := db.policies.find? (fun p => p.chapter_id = chapter_id)
  -- deadline gate: `if policy and (not force) and policy.is_open`
  let gate_not_due : Bool :=
    match policy with
    | some p => !opts.force && p.is_open now
    | none => false
  if gate_not_due then
    { status := .not_due
      returned := none
      db := persist_or_skip db chapter_id "not_due" "deadline_not_passed" opts.persist }
  else
    let uploads0 := sort_ts_desc (db.uploads.filter (fun u => u.chapter_id = chapter_id))
    let uploads1 :=
      if opts.only_evaluated_uploads then uploads0.filter (fun u => u.evaluation_status)
      else uploads0
    -- minimum-contributions gate: `if policy and min_contributions_policy == "respect"`
    let gate_not_ready : Bool :=
      match policy with
      | some p =>
        decide (opts.min_contributions_policy = .respect) &&
          decide (uploads1.length < p.min_contributions)
      | none => false
    if gate_not_ready then
      { status := .not_ready
        returned := none
        db := persist_or_skip db chapter_id "not_ready" "min_contributions_not_met" opts.persist }
    else
      let ranked := rank_uploads cfg db.scores chapter_id uploads1
      match ranked with
      | [] =>
        { status := .no_candidates
          returned := none
          db := persist_or_skip db chapter_id "no_candidates" "no_scored_uploads" opts.persist }
      | winner :: _ =>
        let top_k := max 1 opts.top_k_audit
        let db1 :=
          if opts.persist then
            { db with
              runs := create_decision_run db.runs chapter_id "ok" "selected"
                (some winner.upload_id) (some winner.composite_score)
                (leaderboard ranked top_k) }
          else db
        let db2 := { db1 with
          scores := mark_best_upload db1.uploads db1.scores chapter_id winner.upload_id }
        let db3 :=
          if opts.auto_release then
            { db2 with
              released := auto_release db2.uploads db2.released chapter_id winner.upload_id }
          else db2
        { status := .ok
          returned := some { selected_upload_id := winner.upload_id
                             composite_score := winner.composite_score }
          db := db3 }

/-! ### Release gate (accounts/services/admin_agent.py) -/

/-- `accounts.models.ReleasePolicy` fields read by the admin agent
(one-to-one with the course; the agent receives it via
`course.release_policy`). -/
structure ReleasePolicy where
  auto_release_enabled : Bool
  threshold_percentage : Option ℤ
deriving DecidableEq

/-- The tables `AdminAgentService.process_course` reads and writes. -/
structure AdminDB where
  chapters : List Chapter
  uploads : List UploadCheck
  scores : List ContentScore
  released : List ReleasedRow

/-- Result dict of `process_course` (its discriminating `status` key plus
the numeric fields reported on each branch). -/
inductive PCStatus
  | no_chapters
  | disabled
  | skipped_threshold (completed : ℕ) (required : ℤ) (threshold : ℤ)
  | processed (prefix_len : ℕ) (completed : ℕ) (required : ℤ) (threshold : ℤ)
deriving DecidableEq

/-- A course's chapters ordered by `chapter_number` (stable sort). -/
def sorted_chapters (db : AdminDB) (course_id : ℕ) : List Chapter :=
  List.insertionSort (fun c d => c.chapter_number ≤ d.chapter_number)
    (db.chapters.filter (fun c => c.course_id = course_id))

instance : DecidableRel (fun c d : Chapter => c.chapter_number ≤ d.chapter_number) :=
  fun c d => inferInstanceAs (Decidable (c.chapter_number ≤ d.chapter_number))

/-- `_chapter_is_complete`: some upload of the chapter has a related
`ContentScore` row with `is_best = true`. -/
def chapter_is_complete (db : AdminDB) (ch : Chapter) : Bool :=
  db.uploads.any fun u =>
    decide (u.chapter_id = ch.id) &&
      db.scores.any (fun s => decide (s.upload_id = u.id) && s.is_best)

/-- `_best_upload_for_chapter`: the latest upload of the chapter whose
score row has `is_best = true`. -/
def best_upload_for_chapter (db : AdminDB) (ch : Chapter) : Option UploadCheck :=
  (sort_ts_desc (db.uploads.filter fun u =>
    decide (u.chapter_id = ch.id) &&
      db.scores.any (fun s => decide (s.upload_id = u.id) && s.is_best))).head?

/-- Does upload `uid` belong to a chapter of this course
(`chapter__course=course` join)? -/
def upload_in_course (chapters : List Chapter) (uploads : List UploadCheck)
    (course_id uid : ℕ) : Bool :=
  uploads.any fun u =>
    decide (u.id = uid) &&
      chapters.any (fun c => decide (c.id = u.chapter_id) && decide (c.course_id = course_id))

/-- Length of the unbroken leading run of `True` flags (the sequential-rule
loop computing `prefix_len`). -/
def leading_complete : List Bool → ℕ
  | [] => 0
  | true :: rest => leading_complete rest + 1
  | false :: _ => 0

/-- `ReleasedContent.objects.get_or_create(upload=best)` followed by
`rc.release_status = allowed; rc.save(...)`. -/
def upsert_release (released : List ReleasedRow) (uid : ℕ) (allowed : Bool) :
    List ReleasedRow :=
  if released.any (fun r => r.upload_id = uid) then
    released.map fun r =>
      if r.upload_id = uid then { r with release_status := allowed } else r
  else released ++ [{ upload_id := uid, release_status := allowed }]

/-- One iteration of the per-chapter release loop: reset every release row
of the chapter to `False`, then upsert the best upload's row to `allowed`
(skipping chapters without a best upload). -/
def release_chapter (db : AdminDB) (released : List ReleasedRow) (ch : Chapter)
    (allowed : Bool) : List ReleasedRow :=
  let cleared := released.map fun r =>
    if db.uploads.any (fun u => decide (u.id = r.upload_id) && decide (u.chapter_id = ch.id)) then
      { r with release_status := false }
    else r
  match best_upload_for_chapter db ch with
  | none => cleared
  | some best => upsert_release cleared best.id allowed

/-- The sequential-release loop `for idx, ch in enumerate(chapters)`. -/
def release_loop (db : AdminDB) (prefix_len : ℕ) :
    List ReleasedRow → ℕ → List Chapter → List ReleasedRow
  | rel, _, [] => rel
  | rel, idx, ch :: rest =>
    release_loop db prefix_len
      (release_chapter db rel ch (decide (idx < prefix_len))) (idx + 1) rest

/-- `AdminAgentService.process_course`. The course's release policy arrives
via the one-to-one `course.release_policy` (absent → defaults). -/
def process_course (db : AdminDB) (course_id : ℕ) (policy : Option ReleasePolicy) :
    PCStatus × AdminDB :=
  let chapters := sorted_chapters db course_id
  let total := chapters.length
  if total = 0 then (.no_chapters, db)
  else if (match policy with
           | some p => decide (p.auto_release_enabled = false)
           | none => false : Bool) then (.disabled, db)
  else
    let threshold : ℤ :=
      match policy with
      | some p => p.threshold_percentage.getD 80
      | none => 80
    let required := required_chapters total threshold
    let complete_flags := chapters.map (chapter_is_complete db)
    let completed_count := complete_flags.count true
    if (completed_count : ℤ) < required then
      (.skipped_threshold completed_count required threshold,
        { db with
          released := db.released.map fun r =>
            if upload_in_course db.chapters db.uploads course_id r.upload_id then
              { r with release_status := false }
            else r })
    else
      let prefix_len := leading_complete complete_flags
      let released' := release_loop db prefix_len db.released 0 chapters
      (.processed prefix_len completed_count required threshold,
        { db with released := released' })

/-- The effective auto-release switch of a course (`ReleasePolicy` absent →
enabled). -/
def auto_enabled (policy : Option ReleasePolicy) : Bool :=
  match policy with
  | some p => p.auto_release_enabled
  | none => true

/-- The effective threshold of a course (`ReleasePolicy` absent or null
percentage → the default 80). -/
def course_threshold (policy : Option ReleasePolicy) : ℤ :=
  match policy with
  | some p => p.threshold_percentage.getD 80
  | none => 80

/-- Upload `uid` currently has a release row with `release_status = true`. -/
def released_true (released : List ReleasedRow) (uid : ℕ) : Prop :=
  ∃ r ∈ released, r.upload_id = uid ∧ r.release_status = true

theorem released_true_map_clear_of_ne {rel : List ReleasedRow} {uid : ℕ}
    {cond : ReleasedRow → Bool}
    (h : ∀ r : ReleasedRow, r.upload_id = uid → cond r = false) :
    released_true
      (rel.map fun r => if cond r then { r with release_status := false } else r)
      uid ↔ released_true rel uid := by
  constructor
  · rintro ⟨r', hr', hid, hst⟩
    obtain ⟨r, hr, rfl⟩ := List.mem_map.mp hr'
    by_cases hc : cond r
    · simp only [hc, if_true] at hst
      cases hst
    · simp only [hc, Bool.false_eq_true, if_false] at hid hst
      exact ⟨r, hr, hid, hst⟩
  · rintro ⟨r, hr, hid, hst⟩
    refine ⟨_, List.mem_map_of_mem _ hr, ?_⟩
    simp [h r hid, hid, hst]

theorem not_released_true_map_clear {rel : List ReleasedRow} {uid : ℕ}
    {cond : ReleasedRow → Bool}
    (h : ∀ r : ReleasedRow, r.upload_id = uid → cond r = true) :
    ¬ released_true
      (rel.map fun r => if cond r then { r with release_status := false } else r)
      uid := by
  rintro ⟨r', hr', hid, hst⟩
  obtain ⟨r, hr, rfl⟩ := List.mem_map.mp hr'
  by_cases hc : cond r
  · simp only [hc, if_true] at hst
    cases hst
  · simp only [hc, Bool.false_eq_true, if_false] at hid
    exact absurd (h r hid) (by simp [hc])

theorem released_true_upsert_of_ne {rel : List ReleasedRow} {uid b : ℕ} {a : Bool}
    (h : b ≠ uid) :
    released_true (upsert_release rel b a) uid ↔ released_true rel uid := by
  unfold upsert_release
  split
  · constructor
    · rintro ⟨r', hr', hid, hst⟩
      obtain ⟨r, hr, rfl⟩ := List.mem_map.mp hr'
      by_cases hc : r.upload_id = b
      · simp only [hc, if_true] at hid
        exact absurd hid h
      · simp only [hc, if_false] at hid hst
        exact ⟨r, hr, hid, hst⟩
    · rintro ⟨r, hr, hid, hst⟩
      refine ⟨_, List.mem_map_of_mem _ hr, ?_⟩
      have hne : ¬ (r.upload_id = b) := fun e => h (e ▸ hid)
      rw [if_neg hne]
      exact ⟨hid, hst⟩
  · constructor
    · rintro ⟨r', hr', hid, hst⟩
      rcases List.mem_append.mp hr' with hr | hr
      · exact ⟨r', hr, hid, hst⟩
      · simp only [List.mem_singleton] at hr
        subst hr
        exact absurd hid h
    · rintro ⟨r, hr, hid, hst⟩
      exact ⟨r, List.mem_append.mpr (Or.inl hr), hid, hst⟩

theorem released_true_upsert_self {rel : List ReleasedRow} {uid : ℕ} {a : Bool}
    (hclear : ∀ r ∈ rel, r.upload_id = uid → r.release_status = false) :
    released_true (upsert_release rel uid a) uid ↔ a = true := by
  unfold upsert_release
  split
  · rename_i hex
    constructor
    · rintro ⟨r', hr', hid, hst⟩
      obtain ⟨r, hr, rfl⟩ := List.mem_map.mp hr'
      by_cases hc : r.upload_id = uid
      · simp only [hc, if_true] at hst
        exact hst
      · rw [if_neg hc] at hid
        exact absurd hid hc
    · intro ha
      obtain ⟨r, hr, hrid⟩ := List.any_eq_true.mp hex
      rw [decide_eq_true_eq] at hrid
      refine ⟨_, List.mem_map_of_mem _ hr, ?_⟩
      simp [hrid, ha]
  · constructor
    · rintro ⟨r', hr', hid, hst⟩
      rcases List.mem_append.mp hr' with hr | hr
      · exact absurd hst (by simp [hclear r' hr hid])
      · simp only [List.mem_singleton] at hr
        subst hr
        exact hst
    · intro ha
      exact ⟨⟨uid, a⟩, List.mem_append.mpr (Or.inr (by simp)), rfl, ha⟩

theorem best_upload_mem {db : AdminDB} {ch : Chapter} {b : UploadCheck}
    (h : best_upload_for_chapter db ch = some b) :
    b ∈ db.uploads ∧ b.chapter_id = ch.id := by
  unfold best_upload_for_chapter at h
  have hmem := List.mem_of_mem_head? (l := sort_ts_desc (db.uploads.filter fun u =>
    decide (u.chapter_id = ch.id) &&
      db.scores.any (fun s => decide (s.upload_id = u.id) && s.is_best)))
    (a := b) (by rw [h]; rfl)
  have hmem2 := (List.perm_insertionSort
    (fun u v : UploadCheck => v.timestamp ≤ u.timestamp) _).mem_iff.mp hmem
  rw [List.mem_filter] at hmem2
  obtain ⟨h1, h2⟩ := hmem2
  rw [Bool.and_eq_true, decide_eq_true_eq] at h2
  exact ⟨h1, h2.1⟩

/-- One release-loop iteration does not change the release state of an
upload id that no upload of the chapter carries. -/
theorem release_chapter_not_in {db : AdminDB} {rel : List ReleasedRow}
    {ch : Chapter} {a : Bool} {uid : ℕ}
    (h : db.uploads.any
      (fun u => decide (u.id = uid) && decide (u.chapter_id = ch.id)) = false) :
    released_true (release_chapter db rel ch a) uid ↔ released_true rel uid := by
  have hcond : ∀ r : ReleasedRow, r.upload_id = uid →
      (db.uploads.any fun u =>
        decide (u.id = r.upload_id) && decide (u.chapter_id = ch.id)) = false := by
    intro r hr
    rw [hr]
    exact h
  unfold release_chapter
  rcases hb : best_upload_for_chapter db ch with _ | b
  · exact released_true_map_clear_of_ne hcond
  · have hbne : b.id ≠ uid := by
      intro e
      obtain ⟨hmem, hch⟩ := best_upload_mem hb
      have : db.uploads.any
          (fun u => decide (u.id = uid) && decide (u.chapter_id = ch.id)) = true :=
        List.any_eq_true.mpr ⟨b, hmem, by simp [e, hch]⟩
      rw [this] at h
      cases h
    rw [released_true_upsert_of_ne hbne, released_true_map_clear_of_ne hcond]

/-- One release-loop iteration for the chapter that owns `uid`: afterwards
`uid` is released exactly when it is the chapter's best upload and the
chapter is inside the allowed prefix. -/
theorem release_chapter_in {db : AdminDB} {rel : List ReleasedRow}
    {ch : Chapter} {a : Bool} {uid : ℕ}
    (hu : ∃ u ∈ db.uploads, u.id = uid ∧ u.chapter_id = ch.id) :
    released_true (release_chapter db rel ch a) uid ↔
      (a = true ∧ (best_upload_for_chapter db ch).map (fun u => u.id) = some uid) := by
  obtain ⟨u, hum, huid, much⟩ := hu
  have hcond : ∀ r : ReleasedRow, r.upload_id = uid →
      (db.uploads.any fun v =>
        decide (v.id = r.upload_id) && decide (v.chapter_id = ch.id)) = true := by
    intro r hr
    exact List.any_eq_true.mpr ⟨u, hum, by simp [hr, huid, much]⟩
  unfold release_chapter
  rcases hb : best_upload_for_chapter db ch with _ | b
  · simp only [Option.map_none']
    constructor
    · intro hrt
      exact absurd hrt (not_released_true_map_clear hcond)
    · rintro ⟨-, h⟩
      cases h
  · simp only [Option.map_some']
    by_cases hbe : b.id = uid
    · rw [hbe]
      rw [released_true_upsert_self ?hclear]
      case hclear =>
        intro r' hr' hid
        obtain ⟨r, hr, rfl⟩ := List.mem_map.mp hr'
        by_cases hc : (db.uploads.any fun v =>
            decide (v.id = r.upload_id) && decide (v.chapter_id = ch.id)) = true
        · simp [hc]
        · simp only [hc, Bool.false_eq_true, if_false] at hid ⊢
          exact absurd (hcond r hid) hc
      constructor
      · intro ha
        exact ⟨ha, rfl⟩
      · rintro ⟨ha, -⟩
        exact ha
    · rw [released_true_upsert_of_ne hbe]
      constructor
      · intro hrt
        exact absurd hrt (not_released_true_map_clear hcond)
      · rintro ⟨-, h⟩
        injection h with h'
        exact absurd h' hbe

/-! ### Scoring agents (langgraph_agents/agents/*.py)

Each agent reads the extracted-content JSON (an external artifact: modelled
as an optional payload in the agent's oracle), computes a local heuristic
from measured text statistics (the measurements — textstat readability,
regex counts, similarity ratios — are oracle inputs; the bucketing and
blending arithmetic on them is embedded), calls Gemini (`llm.invoke` has no
surrounding `try`, so a raised error is modelled as `Except.error`, and an
unparseable reply as a `none` parse), and writes its dimension through the
MCP tool `db_save_scores_generic`. -/

/-- Text as a character list; `String` functions do not reduce in the
kernel, so texts are `List Char` here. -/
abbrev Text := List Char

/-- `not text.strip()`: the text is empty or all whitespace. -/
def is_blank (s : Text) : Bool := s.all (fun c => c.isWhitespace)

/-- Python `round(x, 2)` (rounding of the exact rational; no statement here
depends on the tie-at-half case where Python rounds to even). -/
def round2 (x : ℚ) : ℚ := ((round (x * 100) : ℤ) : ℚ) / 100

/-- The extracted-content JSON fields the agents read. -/
structure ExtractedPayload where
  combined_text : Text
  chapter_name : Text
  chapter_description : Text

/-- The graph state dict (the keys the agents read/write; `mcp_session` is
modelled by its presence). -/
structure GraphState where
  upload_id : Option ℕ
  contributor_id : ℕ
  chapter_id : ℕ
  target_level : String
  mcp_session : Bool
  status : String

/-- MCP tool `db_save_scores_generic` (mcp_server.py): look up the upload,
`get_or_create` its `ContentScore`, clamp each value into [0, 10] and write
the allowed fields. -/
def emptyContentScore (uid : ℕ) : ContentScore :=
  { upload_id := uid, engagement := none, clarity := none, coherence := none
    completeness := none, accuracy := none, is_best := false }

def db_save_scores_generic (uploads : List UploadCheck) (scores : List ContentScore)
    (uid : ℕ) (kvs : List (Dim × ℚ)) : List ContentScore :=
  if uploads.any (fun u => u.id = uid) then
    let scores1 :=
      if scores.any (fun s => s.upload_id = uid) then scores
      else scores ++ [emptyContentScore uid]
    kvs.foldl
      (fun sc kv =>
        sc.map fun s =>
          if s.upload_id = uid then s.setDim kv.1 (max 0 (min 10 kv.2)) else s)
      scores1
  else scores

/-! #### Clarity agent (clarity.py) -/

/-- A row of the clarity `LEVELS` table. -/
structure ClarityLevelCfg where
  fre_good : ℚ
  fre_ok : ℚ
  sent_good : ℚ
  sent_ok : ℚ

def LEVELS : String → ClarityLevelCfg
  | "preschool" => ⟨85, 70, 8, 12⟩
  | "primary" => ⟨75, 60, 10, 14⟩
  | "middle" => ⟨65, 50, 12, 16⟩
  | "secondary" => ⟨55, 40, 14, 18⟩
  | "hsc" => ⟨50, 35, 16, 20⟩
  | "undergrad" => ⟨45, 25, 18, 24⟩
  | "postgrad" => ⟨40, 20, 20, 28⟩
  | "phd" => ⟨35, 15, 22, 30⟩
  | _ => ⟨45, 25, 18, 24⟩

/-- `python_clarity_score` (the `score` field of its result dict); the
measured readability, average sentence length and passive-voice count are
oracle inputs, the level-scaled bucketing is embedded. -/
def python_clarity_score (readability avg_len : ℚ) (passive : ℕ)
    (target_level : String) : ℚ :=
  let cfg := LEVELS target_level
  let r_part : ℚ :=
    if cfg.fre_good ≤ readability then 4
    else if cfg.fre_ok ≤ readability then 3
    else if cfg.fre_ok - 15 ≤ readability then 2
    else 1
  let s_part : ℚ :=
    if avg_len ≤ cfg.sent_good then 4
    else if avg_len ≤ cfg.sent_ok then 3
    else if avg_len ≤ cfg.sent_ok + 10 then 2
    else 1
  let p_part : ℚ := if passive ≤ 5 then 2 else if passive ≤ 15 then 1 else 0
  min 10 (r_part + s_part + p_part)

/-- The JSON object keys of a parsed Gemini clarity reply (each key may be
absent). -/
structure ClarityGemD where
  clarity : Option ℚ
  definition_quality : Option ℚ
  instruction_clarity : Option ℚ
  term_explanation : Option ℚ

/-- The dict `analyze_clarity_with_gemini` returns. -/
structure ClarityGemV where
  clarity : ℚ
  definition_quality : ℚ
  instruction_clarity : ℚ
  term_explanation : ℚ
deriving DecidableEq

/-- `analyze_clarity_with_gemini`: `llm.invoke` is outside any `try`, so a
raised error propagates; an empty/unparseable reply (`safe_extract_json`
returned `{}`) yields the fixed neutral defaults; otherwise each field
defaults individually. -/
def analyze_clarity_with_gemini (resp : Except String (Option ClarityGemD)) :
    Except String ClarityGemV :=
  match resp with
  | .error e => .error e
  | .ok none => .ok ⟨5, 2, 2, 2⟩
  | .ok (some g) =>
    .ok ⟨g.clarity.getD 5, g.definition_quality.getD 2,
         g.instruction_clarity.getD 2, g.term_explanation.getD 2⟩

/-- `combine_clarity`: blend Python 30% with the Gemini-internal score
(main 40%, each ×2-rescaled subscore 20%). -/
def combine_clarity (python_score : ℚ) (gem : ClarityGemV) : ℚ :=
  let defq := gem.definition_quality * 2
  let instr := gem.instruction_clarity * 2
  let termx := gem.term_explanation * 2
  let gem_internal :=
    (0.4 : ℚ) * gem.clarity + (0.2 : ℚ) * defq + (0.2 : ℚ) * instr + (0.2 : ℚ) * termx
  round2 (min 10 ((0.3 : ℚ) * python_score + (0.7 : ℚ) * gem_internal))

structure ClarityOracle where
  payload : Option ExtractedPayload
  readability : ℚ
  avg_len : ℚ
  passive : ℕ
  llm : Except String (Option ClarityGemD)

/-- `evaluate_clarity` tool: guard chain, heuristic + Gemini + blend, MCP
save when a session is in the state. -/
def evaluate_clarity (o : ClarityOracle) (uploads : List UploadCheck)
    (scores : List ContentScore) (st : GraphState) :
    Except String (List ContentScore × GraphState) :=
  match st.upload_id with
  | none => .ok (scores, { st with status := "clarity_failed" })
  | some uid =>
    match o.payload with
    | none => .ok (scores, { st with status := "clarity_failed" })
    | some pl =>
      if is_blank pl.combined_text then
        .ok (scores, { st with status := "clarity_failed" })
      else
        match analyze_clarity_with_gemini o.llm with
        | .error e => .error e
        | .ok gem =>
          let py := python_clarity_score o.readability o.avg_len o.passive st.target_level
          let final_score := combine_clarity py gem
          let scores' :=
            if st.mcp_session then
              db_save_scores_generic uploads scores uid [(.clarity, final_score)]
            else scores
          .ok (scores', { st with status := "clarity_evaluated" })

/-! #### Coherence agent (coherence.py) -/

/-- A Python/AI blend weight pair (used by coherence, completeness and
accuracy level tables). -/
structure BlendCfg where
  py_weight : ℚ
  ai_weight : ℚ

def COHERENCE_LEVELS : String → BlendCfg
  | "preschool" => ⟨0.25, 0.75⟩
  | "primary" => ⟨0.25, 0.75⟩
  | "middle" => ⟨0.30, 0.70⟩
  | "secondary" => ⟨0.35, 0.65⟩
  | "hsc" => ⟨0.35, 0.65⟩
  | "undergrad" => ⟨0.30, 0.70⟩
  | "postgrad" => ⟨0.25, 0.75⟩
  | "phd" => ⟨0.20, 0.80⟩
  | _ => ⟨0.30, 0.70⟩

/-- `python_coherence_score` (its `score` field): the measured
paragraph-similarity ratio is an oracle input, the smooth bucketing is
embedded (`round(min(10, score), 2)` is the identity on these values). -/
def python_coherence_score (sim : ℚ) : ℚ :=
  let score : ℚ :=
    if sim < 0.2 then 4
    else if sim < 0.3 then 6
    else if sim < 0.7 then 8.5
    else if sim < 0.85 then 7
    else 5.5
  round2 (min 10 score)

structure CoherenceGemD where
  coherence : Option ℚ
  logical_flow : Option ℚ
  section_connectivity : Option ℚ
  topic_continuity : Option ℚ

structure CoherenceGemV where
  coherence : ℚ
  logical_flow : ℚ
  section_connectivity : ℚ
  topic_continuity : ℚ
deriving DecidableEq

def analyze_coherence_with_gemini (resp : Except String (Option CoherenceGemD)) :
    Except String CoherenceGemV :=
  match resp with
  | .error e => .error e
  | .ok none => .ok ⟨5, 2, 2, 2⟩
  | .ok (some g) =>
    .ok ⟨g.coherence.getD 5, g.logical_flow.getD 2,
         g.section_connectivity.getD 2, g.topic_continuity.getD 2⟩

def combine_coherence (python_score : ℚ) (gem : CoherenceGemV)
    (target_level : String) : ℚ :=
  let cfg := COHERENCE_LEVELS target_level
  let logical := gem.logical_flow * 2
  let connect := gem.section_connectivity * 2
  let cont := gem.topic_continuity * 2
  let ai_internal :=
    (0.4 : ℚ) * gem.coherence + (0.2 : ℚ) * logical + (0.2 : ℚ) * connect + (0.2 : ℚ) * cont
  round2 (min 10 (cfg.py_weight * python_score + cfg.ai_weight * ai_internal))

structure CoherenceOracle where
  payload : Option ExtractedPayload
  sim : ℚ
  llm : Except String (Option CoherenceGemD)

def evaluate_coherence (o : CoherenceOracle) (uploads : List UploadCheck)
    (scores : List ContentScore) (st : GraphState) :
    Except String (List ContentScore × GraphState) :=
  match st.upload_id with
  | none => .ok (scores, { st with status := "coherence_failed" })
  | some uid =>
    match o.payload with
    | none => .ok (scores, { st with status := "coherence_failed" })
    | some pl =>
      if is_blank pl.combined_text then
        .ok (scores, { st with status := "coherence_failed" })
      else
        match analyze_coherence_with_gemini o.llm with
        | .error e => .error e
        | .ok gem =>
          let py := python_coherence_score o.sim
          let final_score := combine_coherence py gem st.target_level
          let scores' :=
            if st.mcp_session then
              db_save_scores_generic uploads scores uid [(.coherence, final_score)]
            else scores
          .ok (scores', { st with status := "coherence_evaluated" })

/-! #### Completeness agent (completeness.py) -/

def COMPLETENESS_TARGET_WORDS : String → ℕ
  | "preschool" => 250
  | "primary" => 400
  | "middle" => 650
  | "secondary" => 900
  | "hsc" => 1100
  | "undergrad" => 1400
  | "postgrad" => 1700
  | "phd" => 2000
  | _ => 1400

def COMPLETENESS_BLEND : String → BlendCfg
  | "preschool" => ⟨0.35, 0.65⟩
  | "primary" => ⟨0.35, 0.65⟩
  | "middle" => ⟨0.32, 0.68⟩
  | "secondary" => ⟨0.30, 0.70⟩
  | "hsc" => ⟨0.30, 0.70⟩
  | "undergrad" => ⟨0.30, 0.70⟩
  | "postgrad" => ⟨0.28, 0.72⟩
  | "phd" => ⟨0.25, 0.75⟩
  | _ => ⟨0.30, 0.70⟩

/-- `python_completeness_score` (its `score` field): measured word count,
section-cue count and topic-coverage ratio are oracle inputs. -/
def python_completeness_score (words cue_count : ℕ) (coverage : ℚ)
    (target_level : String) : ℚ :=
  let target_words := COMPLETENESS_TARGET_WORDS target_level
  let length_ratio := min 1 ((words : ℚ) / (max target_words 1 : ℕ))
  let length_score := 4 * length_ratio
  let structure_score := min 3 (((cue_count : ℚ) / 5) * 3)
  let topic_score := min 3 (coverage * 3)
  round2 (min 10 (length_score + structure_score + topic_score))

structure CompletenessGemD where
  completeness : Option ℚ
  topic_coverage : Option ℚ
  depth : Option ℚ
  learning_flow : Option ℚ

structure CompletenessGemV where
  completeness : ℚ
  topic_coverage : ℚ
  depth : ℚ
  learning_flow : ℚ
deriving DecidableEq

def analyze_completeness_with_gemini_sync
    (resp : Except String (Option CompletenessGemD)) :
    Except String CompletenessGemV :=
  match resp with
  | .error e => .error e
  | .ok none => .ok ⟨5, 2, 2, 2⟩
  | .ok (some g) =>
    .ok ⟨g.completeness.getD 5, g.topic_coverage.getD 2,
         g.depth.getD 2, g.learning_flow.getD 2⟩

def combine_completeness (python_score : ℚ) (gem : CompletenessGemV)
    (target_level : String) : ℚ :=
  let cfg := COMPLETENESS_BLEND target_level
  let coverage := gem.topic_coverage * 2
  let depth := gem.depth * 2
  let flow := gem.learning_flow * 2
  let ai_internal :=
    (0.4 : ℚ) * gem.completeness + (0.2 : ℚ) * coverage + (0.2 : ℚ) * depth + (0.2 : ℚ) * flow
  round2 (min 10 (max 0 (cfg.py_weight * python_score + cfg.ai_weight * ai_internal)))

structure CompletenessOracle where
  payload : Option ExtractedPayload
  words : ℕ
  cue_count : ℕ
  coverage : ℚ
  llm : Except String (Option CompletenessGemD)

def evaluate_completeness (o : CompletenessOracle) (uploads : List UploadCheck)
    (scores : List ContentScore) (st : GraphState) :
    Except String (List ContentScore × GraphState) :=
  match st.upload_id with
  | none => .ok (scores, { st with status := "completeness_failed" })
  | some uid =>
    match o.payload with
    | none => .ok (scores, { st with status := "completeness_failed" })
    | some pl =>
      if is_blank pl.combined_text then
        .ok (scores, { st with status := "completeness_failed" })
      else
        match analyze_completeness_with_gemini_sync o.llm with
        | .error e => .error e
        | .ok gem =>
          let py := python_completeness_score o.words o.cue_count o.coverage st.target_level
          let final_score := combine_completeness py gem st.target_level
          let scores' :=
            if st.mcp_session then
              db_save_scores_generic uploads scores uid [(.completeness, final_score)]
            else scores
          .ok (scores', { st with status := "completeness_evaluated" })

/-! #### Accuracy agent (accuracy.py) -/

structure AccuracyLevelCfg where
  min_words : ℕ
  coverage_floor : ℚ

def ACCURACY_LEVELS : String → AccuracyLevelCfg
  | "preschool" => ⟨200, 0.20⟩
  | "primary" => ⟨300, 0.22⟩
  | "middle" => ⟨450, 0.25⟩
  | "secondary" => ⟨650, 0.25⟩
  | "hsc" => ⟨800, 0.25⟩
  | "undergrad" => ⟨900, 0.22⟩
  | "postgrad" => ⟨1100, 0.20⟩
  | "phd" => ⟨1300, 0.18⟩
  | _ => ⟨900, 0.22⟩

def ACCURACY_BLEND : String → BlendCfg
  | "preschool" => ⟨0.30, 0.70⟩
  | "primary" => ⟨0.30, 0.70⟩
  | "middle" => ⟨0.28, 0.72⟩
  | "secondary" => ⟨0.25, 0.75⟩
  | "hsc" => ⟨0.25, 0.75⟩
  | "undergrad" => ⟨0.25, 0.75⟩
  | "postgrad" => ⟨0.22, 0.78⟩
  | "phd" => ⟨0.20, 0.80⟩
  | _ => ⟨0.25, 0.75⟩

/-- The regex/word-count measurements `python_accuracy_score` consumes. -/
structure AccuracySignals where
  words : ℕ
  numbers : ℕ
  coverage : ℚ
  terms_nonempty : Bool
  placeholder_hits : ℕ
  ai_disclaimer_hits : ℕ
  has_sources_kw : Bool
  has_refs : Bool

/-- `python_accuracy_score` (its `score` field): start from 10, apply the
length / placeholder / AI-disclaimer / coverage / numeric-density
penalties and the references bonus, clamp to [0, 10], round. -/
def python_accuracy_score (sig : AccuracySignals) (target_level : String) : ℚ :=
  let cfg := ACCURACY_LEVELS target_level
  let score0 : ℚ := 10
  let score1 :=
    if sig.words < cfg.min_words then
      let ratio := (sig.words : ℚ) / (max cfg.min_words 1 : ℕ)
      score0 - 3 * (1 - min 1 ratio)
    else score0
  let score2 :=
    if 0 < sig.placeholder_hits then
      score1 - min (3.5 : ℚ) ((1.5 : ℚ) + (sig.placeholder_hits : ℚ) * (0.5 : ℚ))
    else score1
  let score3 :=
    if 0 < sig.ai_disclaimer_hits then
      score2 - min (3 : ℚ) (1 + (sig.ai_disclaimer_hits : ℚ) * (0.75 : ℚ))
    else score2
  let score4 :=
    if sig.terms_nonempty ∧ sig.coverage < cfg.coverage_floor then
      score3 - min 2 ((cfg.coverage_floor - sig.coverage) * 6)
    else score3
  let score5 :=
    if 0 < sig.words ∧ (0.04 : ℚ) < (sig.numbers : ℚ) / (sig.words : ℚ) ∧
        sig.has_sources_kw = false then
      score4 - (0.75 : ℚ)
    else score4
  let score6 := if sig.has_refs then score5 + (0.25 : ℚ) else score5
  round2 (max 0 (min 10 score6))

structure AccuracyGemD where
  accuracy : Option ℚ
  internal_consistency : Option ℚ
  alignment_with_chapter : Option ℚ
  factual_soundness : Option ℚ

structure AccuracyGemV where
  accuracy : ℚ
  internal_consistency : ℚ
  alignment_with_chapter : ℚ
  factual_soundness : ℚ
deriving DecidableEq

/-- `analyze_accuracy_with_gemini_sync` (the async wrapper just delegates
to it): raised errors propagate, unparseable output becomes the fixed
neutral defaults. -/
def analyze_accuracy_with_gemini_sync (resp : Except String (Option AccuracyGemD)) :
    Except String AccuracyGemV :=
  match resp with
  | .error e => .error e
  | .ok none => .ok ⟨5, 2, 2, 2⟩
  | .ok (some g) =>
    .ok ⟨g.accuracy.getD 5, g.internal_consistency.getD 2,
         g.alignment_with_chapter.getD 2, g.factual_soundness.getD 2⟩

def combine_accuracy (python_score : ℚ) (gem : AccuracyGemV)
    (target_level : String) : ℚ :=
  let cfg := ACCURACY_BLEND target_level
  let consistency := gem.internal_consistency * 2
  let alignment := gem.alignment_with_chapter * 2
  let factual := gem.factual_soundness * 2
  let ai_internal :=
    (0.4 : ℚ) * gem.accuracy + (0.2 : ℚ) * consistency + (0.2 : ℚ) * alignment + (0.2 : ℚ) * factual
  round2 (min 10 (max 0 (cfg.py_weight * python_score + cfg.ai_weight * ai_internal)))

structure AccuracyOracle where
  payload : Option ExtractedPayload
  signals : AccuracySignals
  llm : Except String (Option AccuracyGemD)

def evaluate_accuracy (o : AccuracyOracle) (uploads : List UploadCheck)
    (scores : List ContentScore) (st : GraphState) :
    Except String (List ContentScore × GraphState) :=
  match st.upload_id with
  | none => .ok (scores, { st with status := "accuracy_failed" })
  | some uid =>
    match o.payload with
    | none => .ok (scores, { st with status := "accuracy_failed" })
    | some pl =>
      if is_blank pl.combined_text then
        .ok (scores, { st with status := "accuracy_failed" })
      else
        match analyze_accuracy_with_gemini_sync o.llm with
        | .error e => .error e
        | .ok gem =>
          let py := python_accuracy_score o.signals st.target_level
          let final_score := combine_accuracy py gem st.target_level
          let scores' :=
            if st.mcp_session then
              db_save_scores_generic uploads scores uid [(.accuracy, final_score)]
            else scores
          .ok (scores', { st with status := "accuracy_evaluated" })

/-! #### Engagement agent (engagement.py) -/

/-- Result of `json.loads` on the Gemini engagement reply: a parse failure
is caught and replaced with zero counts; a parsed dict may lack keys, and a
missing key raises (`KeyError`) at the indexing site in
`evaluate_engagement`. -/
inductive EngagementParse
  | failed
  | parsed (case_studies assessments scenario_cues : Option ℚ)

structure EngagementGemV where
  case_studies : Option ℚ
  assessments : Option ℚ
  scenario_cues : Option ℚ

def analyze_engagement_with_gemini (resp : Except String EngagementParse) :
    Except String EngagementGemV :=
  match resp with
  | .error e => .error e
  | .ok .failed => .ok ⟨some 0, some 0, some 0⟩
  | .ok (.parsed a b c) => .ok ⟨a, b, c⟩

structure EngagementOracle where
  full_text : Text
  llm : Except String EngagementParse
  has_assessment : Bool

/-- `evaluate_engagement` tool: latest upload by contributor and chapter,
`get_or_create` of its score row, Drive-extracted text (oracle), Gemini
counts, weighted engagement score saved directly via the ORM.
`has_assessment` stands for the `Assessment` table existence query. -/
def evaluate_engagement (o : EngagementOracle) (uploads : List UploadCheck)
    (scores : List ContentScore) (st : GraphState) :
    Except String (List ContentScore × GraphState) :=
  let upload := (sort_ts_desc (uploads.filter fun u =>
    decide (u.contributor_id = st.contributor_id) &&
      decide (u.chapter_id = st.chapter_id))).head?
  match upload with
  | none => .ok (scores, { st with status := "no_upload_found" })
  | some u =>
    let scores1 :=
      if scores.any (fun s => s.upload_id = u.id) then scores
      else scores ++ [emptyContentScore u.id]
    if is_blank o.full_text then
      .ok (scores1, { st with status := "no_content_found" })
    else
      match analyze_engagement_with_gemini o.llm with
      | .error e => .error e
      | .ok gem =>
        match gem.case_studies, gem.assessments, gem.scenario_cues with
        | some case_studies, some assessments, some scenario_cues =>
          let engagement_score :=
            min 10 (round2 (case_studies * 2 + scenario_cues * (1.5 : ℚ) +
              assessments * (1.5 : ℚ) + (if o.has_assessment then 5 else 0)))
          .ok (scores1.map fun s =>
                if s.upload_id = u.id then { s with engagement := some engagement_score }
                else s,
               { st with status := "engagement_evaluated" })
        | _, _, _ => .error "KeyError"

/-! #### Evaluation orchestrator (graph/workflow.py and the background
runner in views/contributor/submit_content.py) -/

structure GraphOracle where
  clarity : ClarityOracle
  engagement : EngagementOracle
  coherence : CoherenceOracle
  completeness : CompletenessOracle
  accuracy : AccuracyOracle

/-- `compiled_graph`: the fixed node sequence
clarity → engagement → coherence → completeness → accuracy, each node
feeding the shared state dict onward (tool-argument binding is modelled as
passing the state's fields). A raised exception aborts the sequence. -/
def run_graph (o : GraphOracle) (uploads : List UploadCheck)
    (scores : List ContentScore) (st : GraphState) :
    Except String (List ContentScore × GraphState) := do
  let (s1, st1) ← evaluate_clarity o.clarity uploads scores st
  let (s2, st2) ← evaluate_engagement o.engagement uploads s1 st1
  let (s3, st3) ← evaluate_coherence o.coherence uploads s2 st2
  let (s4, st4) ← evaluate_completeness o.completeness uploads s3 st3
  evaluate_accuracy o.accuracy uploads s4 st4

/-- The background `runner` in `submit_content.py`: wait for extraction
(bounded poll; on timeout nothing runs), run the compiled graph, and — on
normal completion — set `evaluation_status = True` on the upload row; an
exception from the graph is caught and logged by the surrounding thread,
leaving the flag untouched. (The blockchain `finalize_evaluation` call and
the auto decision trigger that follow are outside this development.) -/
def runner_background (extraction_ok : Bool) (o : GraphOracle)
    (uploads : List UploadCheck) (scores : List ContentScore) (st : GraphState)
    (upload_id : ℕ) : List UploadCheck × List ContentScore :=
  if extraction_ok then
    match run_graph o uploads scores st with
    | .error _ => (uploads, scores)
    | .ok (scores', _) =>
      (uploads.map fun u =>
        if u.id = upload_id then { u with evaluation_status := true } else u,
       scores')
  else (uploads, scores)

/-! ## Claims -/

theorem round2_bounds {x : ℚ} (h1 : 0 ≤ x) (h2 : x ≤ 10) :
    0 ≤ round2 x ∧ round2 x ≤ 10 := by
  have hfloor : ⌊(1000 + 1/2 : ℚ)⌋ = 1000 := by
    rw [Int.floor_eq_iff]
    norm_num
  have hlow : (0 : ℤ) ≤ round (x * 100) := by
    rw [round_eq]
    rw [Int.le_floor]
    push_cast
    linarith
  have hhigh : round (x * 100) ≤ 1000 := by
    rw [round_eq]
    calc ⌊x * 100 + 1/2⌋ ≤ ⌊(1000 + 1/2 : ℚ)⌋ := Int.floor_le_floor (by linarith)
      _ = 1000 := hfloor
  unfold round2
  constructor
  · have : ((0 : ℤ) : ℚ) ≤ (round (x * 100) : ℚ) := by exact_mod_cast hlow
    positivity
  · have : ((round (x * 100) : ℤ) : ℚ) ≤ 1000 := by exact_mod_cast hhigh
    linarith

/-- `db_save_scores_generic` writes the clamped value onto a row carrying
the upload's id (creating the row when missing). -/
theorem db_save_write {uploads : List UploadCheck} {scores : List ContentScore}
    {uid : ℕ} {dm : Dim} {v : ℚ}
    (hup : uploads.any (fun u => u.id = uid) = true) :
    ∃ s ∈ db_save_scores_generic uploads scores uid [(dm, v)],
      s.upload_id = uid ∧ s.dim dm = some (max 0 (min 10 v)) := by
  unfold db_save_scores_generic
  rw [hup]
  simp only [if_true, List.foldl_cons, List.foldl_nil]
  have hex : ∃ s ∈ (if scores.any (fun s => s.upload_id = uid) then scores
      else scores ++ [emptyContentScore uid]), s.upload_id = uid := by
    by_cases h : scores.any (fun s => s.upload_id = uid) = true
    · obtain ⟨s, hs, hsp⟩ := List.any_eq_true.mp h
      rw [decide_eq_true_eq] at hsp
      exact ⟨s, by rw [if_pos h]; exact hs, hsp⟩
    · refine ⟨emptyContentScore uid, ?_, rfl⟩
      rw [if_neg h]
      exact List.mem_append.mpr (Or.inr (by simp))
  obtain ⟨s, hs, hsid⟩ := hex
  refine ⟨_, List.mem_map_of_mem
    (fun s => if s.upload_id = uid then s.setDim dm (max 0 (min 10 v)) else s) hs, ?_⟩
  rw [if_pos hsid]
  constructor
  · cases dm <;> simp [ContentScore.setDim, hsid]
  · cases dm <;> simp [ContentScore.setDim, ContentScore.dim]

/-- An evaluation run in which every agent fails soft: the extracted JSON
file is missing (all four dict-convention agents bail out) and the Drive
extraction yields no text (the engagement agent bails out); no Gemini call
is ever made. -/
def oracleC2 : GraphOracle :=
  { clarity := { payload := none, readability := 0, avg_len := 0, passive := 0,
                 llm := .ok none }
    engagement := { full_text := [], llm := .ok .failed, has_assessment := false }
    coherence := { payload := none, sim := 0, llm := .ok none }
    completeness := { payload := none, words := 0, cue_count := 0, coverage := 0,
                      llm := .ok none }
    accuracy := { payload := none,
                  signals := ⟨0, 0, 0, false, 0, 0, false, false⟩,
                  llm := .ok none } }

def stateC2 : GraphState :=
  { upload_id := some 1, contributor_id := 7, chapter_id := 3,
    target_level := "undergrad", mcp_session := true, status := "" }

/-- C2 counterexample: the graph completes with every dimension still null
(the score row created by the engagement agent's `get_or_create` has all
five dimensions `none`), yet the runner flips `evaluation_status` to true —
the flag does not wait for the five dimensions to be non-null. -/
theorem C2_counterexample :
    runner_background true oracleC2 [⟨1, 7, 3, 100, false⟩] [] stateC2 1 =
      ([⟨1, 7, 3, 100, true⟩], [emptyContentScore 1]) ∧
    (emptyContentScore 1).clarity = none ∧
    (emptyContentScore 1).coherence = none ∧
    (emptyContentScore 1).completeness = none ∧
    (emptyContentScore 1).accuracy = none ∧
    (emptyContentScore 1).engagement = none := by
  refine ⟨rfl, rfl, rfl, rfl, rfl, rfl⟩

/-- C2 amended: the runner sets the evaluated flag unconditionally as soon
as the evaluation graph completes without raising — it never inspects the
five dimensions; the flag stays untouched only when extraction timed out
or the graph raised. -/
theorem C2_evaluated_flag_amended :
    (∀ o uploads scores st upload_id scores' st',
      run_graph o uploads scores st = .ok (scores', st') →
      runner_background true o uploads scores st upload_id =
        (uploads.map fun u =>
          if u.id = upload_id then { u with evaluation_status := true } else u,
         scores')) ∧
    (∀ o uploads scores st upload_id e,
      run_graph o uploads scores st = .error e →
      runner_background true o uploads scores st upload_id = (uploads, scores)) ∧
    (∀ o uploads scores st upload_id,
      runner_background false o uploads scores st upload_id = (uploads, scores)) := by
  refine ⟨?_, ?_, ?_⟩
  · intro o uploads scores st upload_id scores' st' h
    simp [runner_background, h]
  · intro o uploads scores st upload_id e h
    simp [runner_background, h]
  · intro o uploads scores st upload_id
    simp [runner_background]

/-- C2 witness: the amended theorem applied to the all-fail-soft run. -/
theorem C2_evaluated_flag_amended_witness :
    runner_background true oracleC2 [⟨1, 7, 3, 100, false⟩] [] stateC2 1 =
      ([⟨1, 7, 3, 100, false⟩].map fun u =>
        if u.id = 1 then { u with evaluation_status := true } else u,
       [emptyContentScore 1]) :=
  C2_evaluated_flag_amended.1 oracleC2 [⟨1, 7, 3, 100, false⟩] [] stateC2 1
    [emptyContentScore 1] { stateC2 with status := "accuracy_failed" } rfl

/-- The clarity guards pass (upload id 1, non-blank payload) but the
external judgment call raises. -/
def oracleC3 : ClarityOracle :=
  { payload := some { combined_text := ['h', 'i'], chapter_name := [],
                      chapter_description := [] }
    readability := 50, avg_len := 10, passive := 0, llm := .error "boom" }

def stateC3 : GraphState :=
  { upload_id := some 1, contributor_id := 7, chapter_id := 3,
    target_level := "undergrad", mcp_session := true, status := "" }

/-- C3 counterexample: an error raised by the external call is NOT
absorbed — it propagates out of the clarity agent (and out of the accuracy
Gemini wrapper), contradicting the claim that any failure of the call is
replaced by neutral defaults. -/
theorem C3_counterexample :
    evaluate_clarity oracleC3 [⟨1, 7, 3, 100, false⟩] [] stateC3 = .error "boom" ∧
    analyze_accuracy_with_gemini_sync (.error "api down") = .error "api down" := by
  exact ⟨rfl, rfl⟩

/-- C3 amended: only an unparseable (or empty) reply is absorbed — it is
replaced by the fixed neutral defaults (main 5, sub-scores 2) and the
agent still computes and writes a clamped 0–10 blended value; an exception
raised by the external call itself propagates to the caller. -/
theorem C3_fail_soft_amended :
    (analyze_clarity_with_gemini (.ok none) = .ok ⟨5, 2, 2, 2⟩ ∧
      analyze_accuracy_with_gemini_sync (.ok none) = .ok ⟨5, 2, 2, 2⟩) ∧
    (∀ (o : ClarityOracle) uploads scores st uid pl parse,
      st.upload_id = some uid →
      o.payload = some pl →
      is_blank pl.combined_text = false →
      o.llm = .ok parse →
      st.mcp_session = true →
      uploads.any (fun u => u.id = uid) = true →
      ∃ v, evaluate_clarity o uploads scores st =
          .ok (db_save_scores_generic uploads scores uid [(.clarity, v)],
            { st with status := "clarity_evaluated" }) ∧
        ∃ s ∈ db_save_scores_generic uploads scores uid [(.clarity, v)],
          s.upload_id = uid ∧
          ∃ w, s.dim .clarity = some w ∧ 0 ≤ w ∧ w ≤ 10) ∧
    (∀ (o : AccuracyOracle) uploads scores st uid pl parse,
      st.upload_id = some uid →
      o.payload = some pl →
      is_blank pl.combined_text = false →
      o.llm = .ok parse →
      st.mcp_session = true →
      uploads.any (fun u => u.id = uid) = true →
      ∃ v, evaluate_accuracy o uploads scores st =
          .ok (db_save_scores_generic uploads scores uid [(.accuracy, v)],
            { st with status := "accuracy_evaluated" }) ∧
        ∃ s ∈ db_save_scores_generic uploads scores uid [(.accuracy, v)],
          s.upload_id = uid ∧
          ∃ w, s.dim .accuracy = some w ∧ 0 ≤ w ∧ w ≤ 10) ∧
    (∀ (o : ClarityOracle) uploads scores st uid pl e,
      st.upload_id = some uid →
      o.payload = some pl →
      is_blank pl.combined_text = false →
      o.llm = .error e →
      evaluate_clarity o uploads scores st = .error e) ∧
    (∀ (o : AccuracyOracle) uploads scores st uid pl e,
      st.upload_id = some uid →
      o.payload = some pl →
      is_blank pl.combined_text = false →
      o.llm = .error e →
      evaluate_accuracy o uploads scores st = .error e) := by
  have hw : ∀ (v : ℚ), 0 ≤ max 0 (min 10 v) ∧ max 0 (min 10 v) ≤ 10 := by
    intro v
    constructor
    · exact le_max_left 0 (min 10 v)
    · exact max_le (by norm_num) (min_le_left 10 v)
  refine ⟨⟨rfl, rfl⟩, ?_, ?_, ?_, ?_⟩
  · intro o uploads scores st uid pl parse h1 h2 h3 h4 h5 h6
    refine ⟨combine_clarity
      (python_clarity_score o.readability o.avg_len o.passive st.target_level)
      ((analyze_clarity_with_gemini (.ok parse)).toOption.getD ⟨5, 2, 2, 2⟩), ?_, ?_⟩
    · cases parse <;>
        simp [evaluate_clarity, h1, h2, h3, h4, h5, analyze_clarity_with_gemini,
          Except.toOption]
    · obtain ⟨s, hs, hsid, hsd⟩ := @db_save_write uploads scores uid Dim.clarity
        (combine_clarity
          (python_clarity_score o.readability o.avg_len o.passive st.target_level)
          ((analyze_clarity_with_gemini (.ok parse)).toOption.getD ⟨5, 2, 2, 2⟩)) h6
      exact ⟨s, hs, hsid, _, hsd, (hw _).1, (hw _).2⟩
  · intro o uploads scores st uid pl parse h1 h2 h3 h4 h5 h6
    refine ⟨combine_accuracy (python_accuracy_score o.signals st.target_level)
      ((analyze_accuracy_with_gemini_sync (.ok parse)).toOption.getD ⟨5, 2, 2, 2⟩)
      st.target_level, ?_, ?_⟩
    · cases parse <;>
        simp [evaluate_accuracy, h1, h2, h3, h4, h5, analyze_accuracy_with_gemini_sync,
          Except.toOption]
    · obtain ⟨s, hs, hsid, hsd⟩ := @db_save_write uploads scores uid Dim.accuracy
        (combine_accuracy (python_accuracy_score o.signals st.target_level)
          ((analyze_accuracy_with_gemini_sync (.ok parse)).toOption.getD ⟨5, 2, 2, 2⟩)
          st.target_level) h6
      exact ⟨s, hs, hsid, _, hsd, (hw _).1, (hw _).2⟩
  · intro o uploads scores st uid pl e h1 h2 h3 h4
    simp [evaluate_clarity, h1, h2, h3, h4, analyze_clarity_with_gemini]
  · intro o uploads scores st uid pl e h1 h2 h3 h4
    simp [evaluate_accuracy, h1, h2, h3, h4, analyze_accuracy_with_gemini_sync]

/-- C3 witness: the amended theorem applied to a concrete unparseable
reply. -/
theorem C3_fail_soft_amended_witness :
    ∃ v, evaluate_clarity
        { payload := some { combined_text := ['h', 'i'], chapter_name := [],
                            chapter_description := [] }
          readability := 50, avg_len := 10, passive := 0, llm := .ok none }
        [⟨1, 7, 3, 100, false⟩] [] stateC3 =
      .ok (db_save_scores_generic [⟨1, 7, 3, 100, false⟩] [] 1 [(.clarity, v)],
        { stateC3 with status := "clarity_evaluated" }) ∧
      ∃ s ∈ db_save_scores_generic [⟨1, 7, 3, 100, false⟩] [] 1 [(.clarity, v)],
        s.upload_id = 1 ∧ ∃ w, s.dim .clarity = some w ∧ 0 ≤ w ∧ w ≤ 10 :=
  C3_fail_soft_amended.2.1
    { payload := some { combined_text := ['h', 'i'], chapter_name := [],
                        chapter_description := [] }
      readability := 50, avg_len := 10, passive := 0, llm := .ok none }
    [⟨1, 7, 3, 100, false⟩] [] stateC3 1
    { combined_text := ['h', 'i'], chapter_name := [], chapter_description := [] }
    none rfl rfl (by decide) rfl rfl (by decide)

/-- A two-chapter course where only the second chapter has a winner:
the leading complete prefix is 0, below `required = 1`, yet the count of
complete chapters (1) meets the threshold. -/
def dbC1 : AdminDB :=
  { chapters := [⟨1, 1, 1⟩, ⟨2, 1, 2⟩]
    uploads := [⟨1, 10, 1, 100, true⟩, ⟨2, 11, 2, 200, true⟩]
    scores := [⟨1, none, none, none, none, some 5, false⟩,
               ⟨2, none, none, none, none, some 9, true⟩]
    released := [⟨2, true⟩] }

/-- C1 counterexample: with winner pattern [false, true] at the default
threshold the ready prefix (0) is strictly below `required` (1), but
`process_course` does not take the revoke-and-report-pending
(`skipped_threshold`) branch — it reports `processed` (the count of
complete chapters, not the prefix length, is what the gate compares). -/
theorem C1_counterexample :
    leading_complete ((sorted_chapters dbC1 1).map (chapter_is_complete dbC1)) = 0 ∧
    required_chapters ((sorted_chapters dbC1 1).length : ℤ) 80 = 1 ∧
    (process_course dbC1 1 none).1 = .processed 0 1 1 80 := by
  refine ⟨by decide, by decide, by decide⟩

/-- C1 amended: the Release Gate's defensive reset triggers when the count
of chapters with a winner (not the leading prefix length) is below
`required`; on that branch it revokes release for every submission of the
course and reports the pending (`skipped_threshold`) status. -/
theorem C1_threshold_pending_amended :
    ∀ db course_id policy,
      auto_enabled policy = true →
      sorted_chapters db course_id ≠ [] →
      (((sorted_chapters db course_id).map (chapter_is_complete db)).count true : ℤ) <
        required_chapters ((sorted_chapters db course_id).length : ℤ)
          (course_threshold policy) →
      (process_course db course_id policy).1 =
        .skipped_threshold
          (((sorted_chapters db course_id).map (chapter_is_complete db)).count true)
          (required_chapters ((sorted_chapters db course_id).length : ℤ)
            (course_threshold policy))
          (course_threshold policy) ∧
      ∀ r ∈ (process_course db course_id policy).2.released,
        upload_in_course db.chapters db.uploads course_id r.upload_id = true →
        r.release_status = false := by
  intro db course_id policy hen hne hlt
  have htot : ¬ (sorted_chapters db course_id).length = 0 := by
    simpa [List.length_eq_zero] using hne
  have hred : process_course db course_id policy =
      (.skipped_threshold
          (((sorted_chapters db course_id).map (chapter_is_complete db)).count true)
          (required_chapters ((sorted_chapters db course_id).length : ℤ)
            (course_threshold policy))
          (course_threshold policy),
        { db with released := db.released.map fun r =>
            if upload_in_course db.chapters db.uploads course_id r.upload_id then
              { r with release_status := false }
            else r }) := by
    cases policy with
    | none =>
      simp only [course_threshold] at hlt
      simp only [process_course, course_threshold]
      rw [if_neg htot, if_neg (by simp), if_pos hlt]
    | some p =>
      simp only [auto_enabled] at hen
      simp only [course_threshold] at hlt
      simp only [process_course, course_threshold]
      rw [if_neg htot, if_neg (by simp [hen]), if_pos hlt]
  rw [hred]
  refine ⟨rfl, ?_⟩
  intro r hr hin
  obtain ⟨r0, hr0, rfl⟩ := List.mem_map.mp hr
  by_cases hc : upload_in_course db.chapters db.uploads course_id r0.upload_id = true
  · simp [hc]
  · rw [if_neg hc] at hin ⊢
    exact absurd hin hc

/-- C1 witness: a course with no winners at all is reset and reported
pending. -/
theorem C1_threshold_pending_amended_witness :
    (process_course
      { chapters := [⟨1, 1, 1⟩], uploads := [⟨1, 10, 1, 100, true⟩],
        scores := [⟨1, none, none, none, none, some 5, false⟩],
        released := [⟨1, true⟩] } 1 none).1 =
      .skipped_threshold 0 1 80 := by
  have h := C1_threshold_pending_amended
    { chapters := [⟨1, 1, 1⟩], uploads := [⟨1, 10, 1, 100, true⟩],
      scores := [⟨1, none, none, none, none, some 5, false⟩],
      released := [⟨1, true⟩] } 1 none rfl (by decide) (by decide)
  have h1 := h.1
  rw [h1]
  norm_num [sorted_chapters, chapter_is_complete, required_chapters,
    course_threshold, List.insertionSort, List.orderedInsert, List.filter]

/-- C7: for a course whose four chapters have winner pattern
[true, true, false, true] at the (default) 80% threshold, the gate passes
(3 complete ≥ required 3) and the sequential rule releases exactly the
best uploads of chapters 1 and 2: an upload of any of the four chapters
ends released iff its chapter is one of the first two and it is that
chapter's best upload — chapter 4's winner stays unreleased. -/
theorem C7_sequential_release :
    ∀ db course_id policy c1 c2 c3 c4,
      auto_enabled policy = true →
      course_threshold policy = 80 →
      (db.uploads.map (fun u => u.id)).Nodup →
      [c1.id, c2.id, c3.id, c4.id].Nodup →
      sorted_chapters db course_id = [c1, c2, c3, c4] →
      chapter_is_complete db c1 = true →
      chapter_is_complete db c2 = true →
      chapter_is_complete db c3 = false →
      chapter_is_complete db c4 = true →
      (process_course db course_id policy).1 = .processed 2 3 3 80 ∧
      (∀ uid ch, ch ∈ [c1, c2, c3, c4] →
        (∃ u ∈ db.uploads, u.id = uid ∧ u.chapter_id = ch.id) →
        (released_true (process_course db course_id policy).2.released uid ↔
          ((ch = c1 ∨ ch = c2) ∧
            (best_upload_for_chapter db ch).map (fun u => u.id) = some uid))) := by
  intro db course_id policy c1 c2 c3 c4 hen hthr hup hch hsorted h1 h2 h3 h4
  have htot : ¬ (sorted_chapters db course_id).length = 0 := by
    rw [hsorted]
    simp
  have hflags : (sorted_chapters db course_id).map (chapter_is_complete db) =
      [true, true, false, true] := by
    rw [hsorted]
    simp [h1, h2, h3, h4]
  have hcount : ((sorted_chapters db course_id).map (chapter_is_complete db)).count true = 3 := by
    rw [hflags]
    rfl
  have hpre : leading_complete
      ((sorted_chapters db course_id).map (chapter_is_complete db)) = 2 := by
    rw [hflags]
    rfl
  have hreq : required_chapters ((sorted_chapters db course_id).length : ℤ)
      (course_threshold policy) = 3 := by
    rw [hsorted, hthr]
    simp only [List.length_cons, List.length_nil]
    decide
  have hred : process_course db course_id policy =
      (.processed 2 3 3 80,
        { db with released := release_loop db 2 db.released 0 [c1, c2, c3, c4] }) := by
    cases policy with
    | none =>
      simp only [course_threshold] at hthr hreq
      simp only [process_course]
      rw [if_neg htot, if_neg (by simp), hcount, hreq, hpre, hsorted]
      norm_num
    | some p =>
      simp only [auto_enabled] at hen
      simp only [course_threshold] at hthr hreq
      rw [hthr] at hreq
      simp only [process_course]
      rw [if_neg htot, if_neg (by simp [hen]), hthr, hcount, hreq, hpre, hsorted]
      norm_num
  rw [hred]
  refine ⟨rfl, ?_⟩
  intro uid ch hch4 hu
  simp only [List.mem_cons, List.mem_singleton, List.not_mem_nil, or_false] at hch4
  obtain ⟨u, hum, huid, huch⟩ := hu
  have hin : ∃ u ∈ db.uploads, u.id = uid ∧ u.chapter_id = ch.id := ⟨u, hum, huid, huch⟩
  have hnot : ∀ c' : Chapter, c'.id ≠ ch.id →
      db.uploads.any (fun v => decide (v.id = uid) && decide (v.chapter_id = c'.id)) = false := by
    intro c' hne
    cases hy : db.uploads.any (fun v => decide (v.id = uid) && decide (v.chapter_id = c'.id)) with
    | false => rfl
    | true =>
      exfalso
      obtain ⟨v, hv, hvp⟩ := List.any_eq_true.mp hy
      rw [Bool.and_eq_true, decide_eq_true_eq, decide_eq_true_eq] at hvp
      have hvu : v = u := List.inj_on_of_nodup_map hup hv hum (by rw [hvp.1, huid])
      rw [hvu] at hvp
      exact hne (by rw [← hvp.2, huch])
  have h12 : c1.id ≠ c2.id := fun e => by simp [e, List.nodup_cons] at hch
  have h13 : c1.id ≠ c3.id := fun e => by simp [e, List.nodup_cons] at hch
  have h14 : c1.id ≠ c4.id := fun e => by simp [e, List.nodup_cons] at hch
  have h23 : c2.id ≠ c3.id := fun e => by simp [e, List.nodup_cons] at hch
  have h24 : c2.id ≠ c4.id := fun e => by simp [e, List.nodup_cons] at hch
  have h34 : c3.id ≠ c4.id := fun e => by simp [e, List.nodup_cons] at hch
  have hloop : release_loop db 2 db.released 0 [c1, c2, c3, c4] =
      release_chapter db
        (release_chapter db
          (release_chapter db
            (release_chapter db db.released c1 true) c2 true) c3 false) c4 false := by
    simp only [release_loop]
    norm_num
  rw [hloop]
  rcases hch4 with rfl | rfl | rfl | rfl
  · rw [release_chapter_not_in (hnot c4 (Ne.symm h14)),
      release_chapter_not_in (hnot c3 (Ne.symm h13)),
      release_chapter_not_in (hnot c2 (Ne.symm h12)),
      release_chapter_in hin]
    simp
  · rw [release_chapter_not_in (hnot c4 (Ne.symm h24)),
      release_chapter_not_in (hnot c3 (Ne.symm h23)),
      release_chapter_in hin]
    simp
  · rw [release_chapter_not_in (hnot c4 (Ne.symm h34)),
      release_chapter_in hin]
    have hne1 : ch ≠ c1 := fun e => h13 (by rw [e])
    have hne2 : ch ≠ c2 := fun e => h23 (by rw [e])
    simp [hne1, hne2]
  · rw [release_chapter_in hin]
    have hne1 : ch ≠ c1 := fun e => h14 (by rw [e])
    have hne2 : ch ≠ c2 := fun e => h24 (by rw [e])
    simp [hne1, hne2]

/-- C7 witness: a concrete four-chapter course with pattern
[true, true, false, true]; chapter 4's winner (upload 4) is not released. -/
theorem C7_sequential_release_witness :
    (process_course
      { chapters := [⟨1, 1, 1⟩, ⟨2, 1, 2⟩, ⟨3, 1, 3⟩, ⟨4, 1, 4⟩],
        uploads := [⟨1, 10, 1, 100, true⟩, ⟨2, 10, 2, 110, true⟩,
                    ⟨3, 10, 3, 120, true⟩, ⟨4, 10, 4, 130, true⟩],
        scores := [⟨1, none, none, none, none, some 9, true⟩,
                   ⟨2, none, none, none, none, some 8, true⟩,
                   ⟨3, none, none, none, none, some 7, false⟩,
                   ⟨4, none, none, none, none, some 6, true⟩],
        released := [] } 1 none).1 = .processed 2 3 3 80 ∧
    ¬ released_true (process_course
      { chapters := [⟨1, 1, 1⟩, ⟨2, 1, 2⟩, ⟨3, 1, 3⟩, ⟨4, 1, 4⟩],
        uploads := [⟨1, 10, 1, 100, true⟩, ⟨2, 10, 2, 110, true⟩,
                    ⟨3, 10, 3, 120, true⟩, ⟨4, 10, 4, 130, true⟩],
        scores := [⟨1, none, none, none, none, some 9, true⟩,
                   ⟨2, none, none, none, none, some 8, true⟩,
                   ⟨3, none, none, none, none, some 7, false⟩,
                   ⟨4, none, none, none, none, some 6, true⟩],
        released := [] } 1 none).2.released 4 := by
  have h := C7_sequential_release
    { chapters := [⟨1, 1, 1⟩, ⟨2, 1, 2⟩, ⟨3, 1, 3⟩, ⟨4, 1, 4⟩],
      uploads := [⟨1, 10, 1, 100, true⟩, ⟨2, 10, 2, 110, true⟩,
                  ⟨3, 10, 3, 120, true⟩, ⟨4, 10, 4, 130, true⟩],
      scores := [⟨1, none, none, none, none, some 9, true⟩,
                 ⟨2, none, none, none, none, some 8, true⟩,
                 ⟨3, none, none, none, none, some 7, false⟩,
                 ⟨4, none, none, none, none, some 6, true⟩],
      released := [] } 1 none ⟨1, 1, 1⟩ ⟨2, 1, 2⟩ ⟨3, 1, 3⟩ ⟨4, 1, 4⟩
    rfl rfl (by decide) (by decide) (by decide)
    (by decide) (by decide) (by decide) (by decide)
  refine ⟨h.1, ?_⟩
  intro hrel
  have := (h.2 4 ⟨4, 1, 4⟩ (by simp) ⟨⟨4, 10, 4, 130, true⟩, by decide, rfl, rfl⟩).mp hrel
  rcases this with ⟨hor, -⟩
  rcases hor with he | he <;> cases he

/-- C8: `_required_chapters(total, threshold)` equals
`max(1, floor(threshold * total / 100))` whenever both inputs are positive
and 0 otherwise; in particular (6, 80) ↦ 4, (1, 50) ↦ 1, (5, 0) ↦ 0. -/
theorem C8_required_chapters :
    (∀ total threshold : ℤ,
      (0 < total ∧ 0 < threshold →
        required_chapters total threshold = max 1 ⌊((threshold : ℚ) * total) / 100⌋) ∧
      (total ≤ 0 ∨ threshold ≤ 0 → required_chapters total threshold = 0)) ∧
    required_chapters 6 80 = 4 ∧
    required_chapters 1 50 = 1 ∧
    required_chapters 5 0 = 0 := by
  refine ⟨fun total threshold => ⟨?_, ?_⟩, by decide, by decide, by decide⟩
  · rintro ⟨h1, h2⟩
    have hc : ((threshold : ℚ) * total) / 100 = ((threshold * total : ℤ) : ℚ) / ((100 : ℕ) : ℚ) := by
      push_cast
      ring
    rw [hc, Rat.floor_intCast_div_natCast]
    simp [required_chapters, not_le.mpr h1, not_le.mpr h2]
  · intro h
    rcases le_or_lt total 0 with ht | ht
    · simp [required_chapters, ht]
    · rcases h with h | h
      · exact absurd ht (not_lt.mpr h)
      · simp [required_chapters, not_le.mpr ht, h]

/-- C8 witness: the theorem applied at concrete inputs. -/
theorem C8_required_chapters_witness :
    required_chapters 7 30 = max 1 ⌊((30 : ℚ) * 7) / 100⌋ ∧
    required_chapters (-3) 50 = 0 :=
  ⟨(C8_required_chapters.1 7 30).1 ⟨by decide, by decide⟩,
   (C8_required_chapters.1 (-3) 50).2 (Or.inl (by decide))⟩

/-- C9: with a policy whose current deadline lies in the future and
`force = false`, `decide_for_chapter` takes the `not_due` branch: nothing
is returned, scores and releases are untouched, and a `not_due` audit row
is appended exactly when `persist = true`; with `force = true` the
deadline gate is never the outcome. -/
theorem C9_deadline_gate :
    (∀ cfg db chapter_id opts now p d,
      db.policies.find? (fun q => q.chapter_id = chapter_id) = some p →
      p.current_deadline = some d →
      now < d →
      opts.force = false →
      (decide_for_chapter cfg db chapter_id opts now).status = .not_due ∧
      (decide_for_chapter cfg db chapter_id opts now).returned = none ∧
      (decide_for_chapter cfg db chapter_id opts now).db.scores = db.scores ∧
      (decide_for_chapter cfg db chapter_id opts now).db.released = db.released ∧
      (opts.persist = true →
        (decide_for_chapter cfg db chapter_id opts now).db.runs =
          create_decision_run db.runs chapter_id "not_due" "deadline_not_passed"
            none none []) ∧
      (opts.persist = false →
        (decide_for_chapter cfg db chapter_id opts now).db.runs = db.runs)) ∧
    (∀ cfg db chapter_id opts now,
      opts.force = true →
      (decide_for_chapter cfg db chapter_id opts now).status ≠ .not_due) := by
  constructor
  · intro cfg db chapter_id opts now p d hp hd hlt hforce
    have hopen : p.is_open now = true := by
      simp [PolicyRow.is_open, hd, le_of_lt hlt]
    simp only [decide_for_chapter, hp, hforce, hopen, Bool.not_false, Bool.true_and,
      if_pos rfl]
    refine ⟨rfl, rfl, ?_, ?_, ?_, ?_⟩ <;>
      simp [persist_or_skip] <;> split <;> simp_all
  · intro cfg db chapter_id opts now hforce
    rcases hp : db.policies.find? (fun q => q.chapter_id = chapter_id) with _ | p <;>
      simp only [decide_for_chapter, hp, hforce, Bool.not_true, Bool.false_and,
        Bool.false_eq_true, if_false] <;>
      split <;>
      first
        | (simp; done)
        | (split <;> first
            | (simp; done)
            | (split <;> simp))

/-- C9 witness: a concrete chapter with a future deadline. -/
theorem C9_deadline_gate_witness :
    (decide_for_chapter defaultConfig
      { uploads := [], scores := [],
        policies := [{ chapter_id := 1, current_deadline := some 100, min_contributions := 0 }],
        runs := [], released := [] }
      1 defaultOpts 5).status = .not_due ∧
    (decide_for_chapter defaultConfig
      { uploads := [], scores := [],
        policies := [{ chapter_id := 1, current_deadline := some 100, min_contributions := 0 }],
        runs := [], released := [] }
      1 { defaultOpts with force := true } 5).status ≠ .not_due := by
  constructor
  · exact (C9_deadline_gate.1 defaultConfig _ 1 defaultOpts 5
      { chapter_id := 1, current_deadline := some 100, min_contributions := 0 } 100
      (by decide) rfl (by decide) rfl).1
  · exact C9_deadline_gate.2 defaultConfig _ 1 { defaultOpts with force := true } 5 rfl

/-- C10: for a chapter with no `ChapterPolicy` row, both gates are
skipped — under any options — the outcome is ranking-driven (`ok` or
`no_candidates`), and a non-empty ranking makes its head the returned
winner. -/
theorem C10_no_policy_skips_gates :
    ∀ cfg db chapter_id opts now,
      db.policies.find? (fun q => q.chapter_id = chapter_id) = none →
      (decide_for_chapter cfg db chapter_id opts now).status ≠ .not_due ∧
      (decide_for_chapter cfg db chapter_id opts now).status ≠ .not_ready ∧
      ((decide_for_chapter cfg db chapter_id opts now).status = .ok ∨
        (decide_for_chapter cfg db chapter_id opts now).status = .no_candidates) ∧
      (∀ winner rest,
        rank_uploads cfg db.scores chapter_id
          (let u0 := sort_ts_desc (db.uploads.filter (fun u => u.chapter_id = chapter_id))
            if opts.only_evaluated_uploads then u0.filter (fun u => u.evaluation_status)
            else u0) = winner :: rest →
        (decide_for_chapter cfg db chapter_id opts now).status = .ok ∧
        (decide_for_chapter cfg db chapter_id opts now).returned =
          some { selected_upload_id := winner.upload_id
                 composite_score := winner.composite_score }) ∧
      (rank_uploads cfg db.scores chapter_id
          (let u0 := sort_ts_desc (db.uploads.filter (fun u => u.chapter_id = chapter_id))
            if opts.only_evaluated_uploads then u0.filter (fun u => u.evaluation_status)
            else u0) = [] →
        (decide_for_chapter cfg db chapter_id opts now).status = .no_candidates) := by
  intro cfg db chapter_id opts now hp
  simp only [decide_for_chapter, hp]
  rcases hr : rank_uploads cfg db.scores chapter_id
      (let u0 := sort_ts_desc (db.uploads.filter (fun u => u.chapter_id = chapter_id))
        if opts.only_evaluated_uploads then u0.filter (fun u => u.evaluation_status)
        else u0) with _ | ⟨winner, rest⟩ <;>
    simp only [hr] <;>
    refine ⟨by simp, by simp, by simp, ?_, by simp⟩ <;>
    intro w r hw
  · simp at hw
  · injection hw with h1 h2
    subst h1
    simp

/-- `_mark_best_upload` as a single map. -/
theorem mark_best_upload_eq_map (uploads : List UploadCheck)
    (scores : List ContentScore) (cid wid : ℕ) :
    mark_best_upload uploads scores cid wid =
      scores.map (fun s =>
        let s1 : ContentScore :=
          if upload_chapter uploads s.upload_id = some cid then
            { s with is_best := false }
          else s
        if s1.upload_id = wid then { s1 with is_best := true } else s1) := by
  unfold mark_best_upload
  rw [List.map_map]
  rfl

/-- After `_mark_best_upload`, a score row of the chapter is marked best
exactly when it is the winner's row. -/
theorem mark_best_chapter_iff {uploads : List UploadCheck}
    {scores : List ContentScore} {cid wid : ℕ} {s' : ContentScore}
    (h : s' ∈ mark_best_upload uploads scores cid wid)
    (hc : upload_chapter uploads s'.upload_id = some cid) :
    s'.is_best = true ↔ s'.upload_id = wid := by
  rw [mark_best_upload_eq_map] at h
  obtain ⟨s, _, rfl⟩ := List.mem_map.mp h
  by_cases h1 : upload_chapter uploads s.upload_id = some cid <;>
    by_cases h2 : s.upload_id = wid <;>
    simp_all

/-- `_mark_best_upload` only toggles flags: the upload ids are unchanged. -/
theorem mark_best_map_upload_id (uploads : List UploadCheck)
    (scores : List ContentScore) (cid wid : ℕ) :
    (mark_best_upload uploads scores cid wid).map (fun s => s.upload_id) =
      scores.map (fun s => s.upload_id) := by
  rw [mark_best_upload_eq_map, List.map_map]
  apply List.map_congr_left
  intro s _
  by_cases h1 : upload_chapter uploads s.upload_id = some cid <;>
    by_cases h2 : s.upload_id = wid <;>
    simp_all

theorem length_le_one_of_all_eq {α : Type} {l : List α} (hn : l.Nodup) (a : α)
    (h : ∀ x ∈ l, x = a) : l.length ≤ 1 := by
  match l with
  | [] => simp
  | [x] => simp
  | x :: y :: t =>
    exfalso
    have hx := h x (by simp)
    have hy := h y (by simp)
    rw [List.nodup_cons] at hn
    exact hn.1 (by rw [hx, ← hy]; exact List.mem_cons_self y t)

/-- C5: a `decide_for_chapter` run that selects a winner first clears
`is_best` on every score row of the chapter and then sets it on exactly the
winner's row, so (given the one-to-one upload ↔ score constraint) at most
one of the chapter's score rows ends with `is_best = true`. -/
theorem C5_single_winner :
    ∀ cfg db chapter_id opts now w,
      (db.scores.map (fun s => s.upload_id)).Nodup →
      (decide_for_chapter cfg db chapter_id opts now).returned = some w →
      (∀ s ∈ (decide_for_chapter cfg db chapter_id opts now).db.scores,
        upload_chapter db.uploads s.upload_id = some chapter_id →
        (s.is_best = true ↔ s.upload_id = w.selected_upload_id)) ∧
      ((decide_for_chapter cfg db chapter_id opts now).db.scores.filter
        (fun s => s.is_best &&
          decide (upload_chapter db.uploads s.upload_id = some chapter_id))).length ≤ 1 := by
  intro cfg db chapter_id opts now w hnd hret
  have key : (decide_for_chapter cfg db chapter_id opts now).db.scores =
      mark_best_upload db.uploads db.scores chapter_id w.selected_upload_id := by
    revert hret
    simp only [decide_for_chapter]
    repeat' split
    all_goals intro h
    all_goals
      first
        | (simp at h; done)
        | (injection h with h'; subst h'; simp)
  constructor
  · intro s hs hcs
    exact mark_best_chapter_iff (key ▸ hs) hcs
  · set l := (decide_for_chapter cfg db chapter_id opts now).db.scores.filter
      (fun s => s.is_best &&
        decide (upload_chapter db.uploads s.upload_id = some chapter_id)) with hl
    have hsub : (l.map (fun s => s.upload_id)).Sublist
        ((decide_for_chapter cfg db chapter_id opts now).db.scores.map
          (fun s => s.upload_id)) :=
      List.Sublist.map _ (List.filter_sublist _)
    have hnd' : (l.map (fun s => s.upload_id)).Nodup := by
      refine List.Nodup.sublist hsub ?_
      rw [key, mark_best_map_upload_id]
      exact hnd
    have hall : ∀ x ∈ l.map (fun s => s.upload_id), x = w.selected_upload_id := by
      intro x hx
      obtain ⟨s, hs, rfl⟩ := List.mem_map.mp hx
      rw [hl, List.mem_filter] at hs
      obtain ⟨hs1, hs2⟩ := hs
      rw [Bool.and_eq_true, decide_eq_true_eq] at hs2
      exact (mark_best_chapter_iff (key ▸ hs1) hs2.2).mp hs2.1
    calc l.length = (l.map (fun s => s.upload_id)).length := (List.length_map _ _).symm
      _ ≤ 1 := length_le_one_of_all_eq hnd' _ hall

/-- C5 witness: a two-upload chapter where upload 2 wins; afterwards only
its score row is marked best. -/
theorem C5_single_winner_witness :
    ((decide_for_chapter defaultConfig
      { uploads := [⟨1, 10, 7, 100, true⟩, ⟨2, 11, 7, 200, true⟩],
        scores := [⟨1, none, none, none, none, some 3, true⟩,
                   ⟨2, none, none, none, none, some 9, false⟩],
        policies := [], runs := [], released := [] }
      7 defaultOpts 500).db.scores.filter
        (fun s => s.is_best &&
          decide (upload_chapter
            [⟨1, 10, 7, 100, true⟩, ⟨2, 11, 7, 200, true⟩] s.upload_id = some 7))).length ≤ 1 := by
  refine (C5_single_winner defaultConfig
    { uploads := [⟨1, 10, 7, 100, true⟩, ⟨2, 11, 7, 200, true⟩],
      scores := [⟨1, none, none, none, none, some 3, true⟩,
                 ⟨2, none, none, none, none, some 9, false⟩],
      policies := [], runs := [], released := [] }
    7 defaultOpts 500 ⟨2, 9⟩ (by decide) ?_).2
  norm_num [decide_for_chapter, defaultOpts, sort_ts_desc, rank_uploads,
    resolve_priority, resolve_weights, defaultConfig, candidate_of,
    weighted_average, ContentScore.dim, available_score_fields,
    DEFAULT_PRIORITY, List.filter, List.insertionSort, List.orderedInsert,
    List.filterMap, rank_le, keyLt, sort_key, non_null_count, obot, tbLt]

theorem candidate_of_upload_id {cfg : DecisionConfig} {scoresDB : List ContentScore}
    {chapter_id : ℕ} {u : UploadCheck} {c : RankedCandidate}
    (h : candidate_of cfg scoresDB chapter_id u = some c) : c.upload_id = u.id := by
  simp only [candidate_of] at h
  repeat' split at h
  all_goals first
    | (injection h with h'; subst h'; rfl)
    | injection h

theorem filterMap_map_sublist {α β γ : Type} (f : α → Option β) (g : β → γ)
    (h : α → γ) (H : ∀ a b, f a = some b → g b = h a) :
    ∀ l : List α, ((l.filterMap f).map g).Sublist (l.map h)
  | [] => by simp
  | a :: l => by
    rcases hf : f a with _ | b
    · simp only [List.filterMap_cons, hf, List.map_cons]
      exact (filterMap_map_sublist f g h H l).cons _
    · simp only [List.filterMap_cons, hf, List.map_cons, H a b hf]
      exact (filterMap_map_sublist f g h H l).cons₂ _

/-- The tie-break scenario configuration: weights accuracy 1,
completeness 2, the rest 0 (a weight map under which the two candidates'
composites tie at 25/3). -/
def cfgC4 : DecisionConfig :=
  { priority := none
    weights := fun f =>
      match f with
      | .accuracy => some 1
      | .completeness => some 2
      | _ => some 0
    primary_strategy := .weighted_average
    missing_strategy := .ignore }

/-- Candidate A's upload: id 1. -/
def uploadA : UploadCheck := ⟨1, 10, 5, 10, true⟩

/-- Candidate B's upload: id 2, newer than A. -/
def uploadB : UploadCheck := ⟨2, 11, 5, 20, true⟩

/-- A = {accuracy 9, completeness 8, others null};
B = {accuracy 7, completeness 9, coherence 8, clarity 8, engagement 8}. -/
def scoresC4 : List ContentScore :=
  [⟨1, none, none, none, some 8, some 9, false⟩,
   ⟨2, some 8, some 8, some 8, some 9, some 7, false⟩]

/-- C4: `rank_uploads` sorts by composite then, in order, by the priority
dimensions (missing = `-inf`), non-null count, recency, upload id — a
strict descending order once upload ids are distinct; the default priority
list is accuracy, completeness, coherence, clarity, engagement; and in the
tie scenario A (accuracy 9) beats B despite B being newer, more complete
and higher-id, with both composites equal to 25/3. -/
theorem C4_rank_ordering :
    resolve_priority defaultConfig available_score_fields =
      [.accuracy, .completeness, .coherence, .clarity, .engagement] ∧
    (∀ cfg scoresDB chapter_id (uploads : List UploadCheck),
      (uploads.map (fun u => u.id)).Nodup →
      (rank_uploads cfg scoresDB chapter_id uploads).Pairwise
        (fun c d =>
          keyLt (sort_key (resolve_priority cfg available_score_fields) d)
            (sort_key (resolve_priority cfg available_score_fields) c))) ∧
    (rank_uploads cfgC4 scoresC4 5 [uploadA, uploadB]).map (fun c => c.upload_id) =
      [1, 2] ∧
    (rank_uploads cfgC4 scoresC4 5 [uploadA, uploadB]).map
      (fun c => c.composite_score) = [25/3, 25/3] := by
  refine ⟨by decide, ?_, ?_, ?_⟩
  · intro cfg scoresDB chapter_id uploads hnodup
    unfold rank_uploads
    have hsorted :=
      List.sorted_insertionSort (rank_le (resolve_priority cfg available_score_fields))
        (uploads.filterMap (candidate_of cfg scoresDB chapter_id))
    have hperm :=
      List.perm_insertionSort (rank_le (resolve_priority cfg available_score_fields))
        (uploads.filterMap (candidate_of cfg scoresDB chapter_id))
    have hids : ((uploads.filterMap (candidate_of cfg scoresDB chapter_id)).map
        (fun c => c.upload_id)).Nodup := by
      refine List.Nodup.sublist ?_ hnodup
      exact filterMap_map_sublist _ _ _
        (fun a b hb => candidate_of_upload_id hb) uploads
    have hnd2 : ((List.insertionSort
        (rank_le (resolve_priority cfg available_score_fields))
        (uploads.filterMap (candidate_of cfg scoresDB chapter_id))).map
          (fun c => c.upload_id)).Nodup :=
      ((hperm.map (fun c => c.upload_id)).nodup_iff).mpr hids
    have hne := (List.pairwise_map).mp hnd2
    refine ((List.Pairwise.and hsorted hne).imp ?_)
    rintro c d ⟨hle | heq, hneq⟩
    · exact hle
    · exact absurd (congrArg SortKey.upload_id heq).symm hneq
  · norm_num [rank_uploads, cfgC4, scoresC4, uploadA, uploadB, resolve_priority,
      resolve_weights, candidate_of, weighted_average, ContentScore.dim,
      available_score_fields, DEFAULT_PRIORITY, List.filterMap,
      List.insertionSort, List.orderedInsert, rank_le, keyLt, sort_key,
      non_null_count, obot, tbLt, List.filter, WithBot.coe_lt_coe,
      WithBot.bot_lt_coe]
    split_ifs with hlt
    · norm_num
    · exact absurd (by exact_mod_cast (by norm_num : (7:ℚ) < 9)) hlt
  · norm_num [rank_uploads, cfgC4, scoresC4, uploadA, uploadB, resolve_priority,
      resolve_weights, candidate_of, weighted_average, ContentScore.dim,
      available_score_fields, DEFAULT_PRIORITY, List.filterMap,
      List.insertionSort, List.orderedInsert, rank_le, keyLt, sort_key,
      non_null_count, obot, tbLt, List.filter, WithBot.coe_lt_coe,
      WithBot.bot_lt_coe]
    split_ifs with hlt
    · norm_num
    · exact absurd (by exact_mod_cast (by norm_num : (7:ℚ) < 9)) hlt

/-- C4 witness: the strict-order part applied to the concrete tie
scenario. -/
theorem C4_rank_ordering_witness :
    (rank_uploads cfgC4 scoresC4 5 [uploadA, uploadB]).Pairwise
      (fun c d =>
        keyLt (sort_key (resolve_priority cfgC4 available_score_fields) d)
          (sort_key (resolve_priority cfgC4 available_score_fields) c)) :=
  C4_rank_ordering.2.1 cfgC4 scoresC4 5 [uploadA, uploadB] (by decide)

/-- A scores dict lacking engagement, with the other four dimensions
present. -/
def scores_no_engagement (va vcl vco vcomp : ℚ) : Dim → Option ℚ
  | .accuracy => some va
  | .clarity => some vcl
  | .coherence => some vco
  | .completeness => some vcomp
  | .engagement => none

/-- C6: with default weights, the `ignore` policy averages a
four-dimension candidate over denominator 4 (finite composite), the `zero`
policy keeps the same numerator over denominator 5 (pulled down whenever
the numerator is non-negative), and a candidate whose composite is the
`-inf` sentinel is dropped before sorting, so it contributes nothing to
the ranking (which is a permutation of the surviving candidates). -/
theorem C6_missing_value_policy :
    (∀ va vcl vco vcomp : ℚ,
      weighted_average (scores_no_engagement va vcl vco vcomp)
        (resolve_weights defaultConfig available_score_fields) .ignore =
        some ((va + vcl + vco + vcomp) / 4)) ∧
    (∀ va vcl vco vcomp : ℚ,
      weighted_average (scores_no_engagement va vcl vco vcomp)
        (resolve_weights defaultConfig available_score_fields) .zero =
        some ((va + vcl + vco + vcomp) / 5)) ∧
    (∀ va vcl vco vcomp : ℚ, 0 ≤ va + vcl + vco + vcomp →
      (va + vcl + vco + vcomp) / 5 ≤ (va + vcl + vco + vcomp) / 4) ∧
    (∀ cfg scoresDB chapter_id (u : UploadCheck) sobj,
      scoresDB.find? (fun s => s.upload_id = u.id) = some sobj →
      cfg.primary_strategy = .weighted_average →
      weighted_average (fun f => sobj.dim f)
        (resolve_weights cfg available_score_fields) cfg.missing_strategy = none →
      candidate_of cfg scoresDB chapter_id u = none) ∧
    (∀ cfg scoresDB chapter_id uploads,
      (rank_uploads cfg scoresDB chapter_id uploads).Perm
        (uploads.filterMap (candidate_of cfg scoresDB chapter_id))) := by
  refine ⟨?_, ?_, ?_, ?_, ?_⟩
  · intro va vcl vco vcomp
    simp only [weighted_average, resolve_weights, defaultConfig,
      available_score_fields, scores_no_engagement, List.map_cons, List.map_nil,
      List.foldl_cons, List.foldl_nil, Option.getD_none]
    norm_num
  · intro va vcl vco vcomp
    simp only [weighted_average, resolve_weights, defaultConfig,
      available_score_fields, scores_no_engagement, List.map_cons, List.map_nil,
      List.foldl_cons, List.foldl_nil, Option.getD_none]
    norm_num
  · intro va vcl vco vcomp h
    rw [div_le_div_iff₀ (by norm_num) (by norm_num)]
    nlinarith [h]
  · intro cfg scoresDB chapter_id u sobj hfind hstrat hnone
    simp [candidate_of, hfind, hstrat, hnone]
  · intro cfg scoresDB chapter_id uploads
    exact List.perm_insertionSort _ _

/-- C6 witness: the theorem applied at a concrete four-score candidate. -/
theorem C6_missing_value_policy_witness :
    weighted_average (scores_no_engagement 9 8 7 6)
      (resolve_weights defaultConfig available_score_fields) .ignore =
      some ((9 + 8 + 7 + 6 : ℚ) / 4) ∧
    ((9 + 8 + 7 + 6 : ℚ) / 5 ≤ (9 + 8 + 7 + 6 : ℚ) / 4) :=
  ⟨C6_missing_value_policy.1 9 8 7 6,
   C6_missing_value_policy.2.2.1 9 8 7 6 (by norm_num)⟩

/-- C10 witness: a chapter with no policy row and no uploads goes straight
to ranking and reports `no_candidates`. -/
theorem C10_no_policy_skips_gates_witness :
    (decide_for_chapter defaultConfig
      { uploads := [], scores := [], policies := [], runs := [], released := [] }
      1 defaultOpts 5).status ≠ .not_due := by
  exact (C10_no_policy_skips_gates defaultConfig
    { uploads := [], scores := [], policies := [], runs := [], released := [] }
    1 defaultOpts 5 rfl).1

end Adhyayan
